import Mathlib

/-!
Verification development for the Opentrons DNA-mix protocols
(`DNAmix_final.py` and `DNAmix_aliquoting_final.py`).

Volumes are embedded as exact rationals (`ℚ`): the Python source computes
with floats, but every claim under study concerns the planning algebra
(rescaling, pooling, allocation, batching), which we model with exact
arithmetic.  Robot API calls are embedded as an explicit trace of actions.
-/

namespace DNAmix

/-- Threshold below which a volume is not reliably pipettable (0.8 µL),
the literal `0.8` of `DNAmix_final.py`. -/
def MIN_RELIABLE_VOLUME : ℚ := 4 / 5

/-- The Python test `0 < v < 0.8` used throughout `DNAmix_final.py`
(lines 230, 233, 298, 345, 466). -/
def smallB (v : ℚ) : Bool := decide (0 < v) && decide (v < MIN_RELIABLE_VOLUME)

/-- Python `min` over a nonempty list (`min(small_volumes)`, line 237);
returns 0 on the empty list, which the source never queries. -/
def listMin : List ℚ → ℚ
  | [] => 0
  | x :: xs => xs.foldl min x

/-- The scale factor computed at lines 236-241 of `DNAmix_final.py`:
`small_volumes = [v for v in mix_volumes if 0 < v < 0.8]`;
if nonempty, `0.8 / sum(small_volumes)` when more than one small volume,
else `0.8 / min(small_volumes)`; if empty the volumes are left alone
(factor 1). -/
def rescaleFactor (vols : List ℚ) : ℚ :=
  let smalls := vols.filter smallB
  if smalls.isEmpty then 1
  else if smalls.length > 1 then MIN_RELIABLE_VOLUME / smalls.sum
  else MIN_RELIABLE_VOLUME / listMin smalls

/-- Lines 229-252 of `DNAmix_final.py`: returns the rescaled volumes and the
`scale_factors` list (`[scale_factor]` when rescaling fired, else
`[1] * len(mix_volumes)`). -/
def rescalePair (vols : List ℚ) : List ℚ × List ℚ :=
  let smalls := vols.filter smallB
  if smalls.isEmpty then (vols, List.replicate vols.length 1)
  else (vols.map (fun v => v * rescaleFactor vols), [rescaleFactor vols])

/-- One entry of `all_mix_data` (lines 259-264 of `DNAmix_final.py`). -/
structure MixData where
  volumes : List ℚ
  scale_factors : List ℚ
  source_wells : List String
  dest_well : String
deriving DecidableEq, Repr

/-- `mix_data['scale_factors'][0]` (lines 296, 466, 577).  Python raises
`IndexError` when the list is empty; the model returns 1 there and the
allocator separately records that crash (see `allocGo`). -/
def mixScale (md : MixData) : ℚ := md.scale_factors.headD 1

/-- Assemble a `MixData` record the way the parse loop does (lines 229-264):
rescale the parsed volumes, keep the source wells and destination well. -/
def mkMixData (vols : List ℚ) (srcs : List String) (dest : String) : MixData :=
  let p := rescalePair vols
  ⟨p.1, p.2, srcs, dest⟩

/-- The back-calculated total of line 577:
`sum(v / mix_data['scale_factors'][0] for v in mix_data['volumes'] if v > 0)`. -/
def totalVolume577 (md : MixData) : ℚ :=
  ((md.volumes.filter (fun v => decide (0 < v))).map (fun v => v / mixScale md)).sum

/-- A well either on the plasmid tube rack (`plasmid_plate`, which also hosts
the intermediate Eppendorf wells C1-C6/D1-D6) or on the PCR destination
plate (`pcr_plate`). -/
inductive Loc where
  | plasmid (well : String)
  | pcr (well : String)
deriving DecidableEq, Repr

/-- One robot-interface call.  `cls` identifies the pipette (50 for the
p50, 1000 for the p1000 which uses 200 µL tips).  Positional modifiers
(`.top`, `.bottom`) are not modelled; log-only `protocol.comment` calls are
kept only where a claim refers to them. -/
inductive Action where
  | pickUpTip (cls : Nat) (tip : String)
  | dropTip (cls : Nat)
  | aspirate (cls : Nat) (vol : ℚ) (loc : Loc)
  | dispense (cls : Nat) (vol : ℚ) (loc : Loc)
  | mixAt (cls : Nat) (reps : Nat) (vol : ℚ) (loc : Loc)
  | blowOut (cls : Nat) (loc : Option Loc)
  | airGap (vol : ℚ)
  | pause (msg : String)
  | comment (msg : String)
  | moveLabware (what slot : String)
  | latchClose
  | latchOpen
deriving DecidableEq, Repr

/-- Per-mix record of which intermediate vessels the allocation loop popped
for that mix (derived bookkeeping; the Python code only stores the two
`assigned_*_wells` dicts, but pops exactly these vessels per mix). -/
structure MixAlloc where
  small_vessel : Option String
  final_vessel : Option String
deriving DecidableEq, Repr

/-- State of the allocation loop of lines 279-332 of `DNAmix_final.py`. -/
structure AllocState where
  small_pool : List String
  final_pool : List String
  combined_pool : List String
  assigned_small : List (String × String)
  assigned_final : List (String × String)
  allocs : List MixAlloc
  events : List Action
  exhausted : Bool
  crashed : Bool
deriving DecidableEq, Repr

/-- Python-dict lookup (`d.get(key)`): entries are prepended on assignment,
so the first match is the most recent binding. -/
def lookupStr (m : List (String × String)) (k : String) : Option String :=
  (m.find? (fun p => p.1 = k)).map Prod.snd

/-- The count of line 298:
`sum(1 for v in mix_data['volumes'] if 0 < v/scale < 0.8)` where
`scale = mix_data['scale_factors'][0]` — i.e. the small-volume count over
the back-divided (original) volumes. -/
def allocSmallCount (md : MixData) : Nat :=
  (md.volumes.filter (fun v =>
    decide (0 < v / mixScale md) && decide (v / mixScale md < MIN_RELIABLE_VOLUME))).length

/-- The pause message of lines 304 and 324. -/
def exhaustMsg : String := "⚠️ Not enough Eppendorf wells available!"

/-- The allocation loop (lines 295-332).  For each mix: read
`scale_factors[0]` (an empty list raises `IndexError` in Python — recorded
as `crashed`), count the small volumes; with more than one small volume pop
one vessel from each of `intermediate_small_pool` and
`intermediate_final_pool`; with exactly one pop from `intermediate_pool`
(the combined list built once at line 282, an independent copy — pops on
it do not affect the other two pools and vice versa); with none allocate
nothing.  An empty needed pool pauses with a warning and `break`s. -/
def allocGo : List MixData → AllocState → AllocState
  | [], st => st
  | md :: rest, st =>
    if md.scale_factors.isEmpty then { st with crashed := true }
    else if allocSmallCount md > 1 then
      if st.small_pool.isEmpty || st.final_pool.isEmpty then
        { st with events := st.events ++ [Action.pause exhaustMsg], exhausted := true }
      else
        allocGo rest { st with
          small_pool := st.small_pool.tail
          final_pool := st.final_pool.tail
          assigned_small := (md.dest_well, st.small_pool.headD "") :: st.assigned_small
          assigned_final := (md.dest_well, st.final_pool.headD "") :: st.assigned_final
          allocs := st.allocs ++ [⟨some (st.small_pool.headD ""), some (st.final_pool.headD "")⟩]
          events := st.events ++
            [Action.comment ("Intermediate SMALL well for " ++ md.dest_well ++ ": " ++ st.small_pool.headD ""),
             Action.comment ("Intermediate FINAL well for " ++ md.dest_well ++ ": " ++ st.final_pool.headD "")] }
    else if allocSmallCount md = 1 then
      if st.combined_pool.isEmpty then
        { st with events := st.events ++ [Action.pause exhaustMsg], exhausted := true }
      else
        allocGo rest { st with
          combined_pool := st.combined_pool.tail
          assigned_final := (md.dest_well, st.combined_pool.headD "") :: st.assigned_final
          allocs := st.allocs ++ [⟨none, some (st.combined_pool.headD "")⟩]
          events := st.events ++
            [Action.comment ("Intermediate FINAL well for " ++ md.dest_well ++ ": " ++ st.combined_pool.headD "")] }
    else
      allocGo rest { st with allocs := st.allocs ++ [⟨none, none⟩] }

/-- `intermediate_small_pool = [f"C{i}" for i in range(1, 7)]` (line 279),
written out. -/
def initSmallPool : List String := ["C1", "C2", "C3", "C4", "C5", "C6"]

/-- `intermediate_final_pool = [f"D{i}" for i in range(1, 7)]` (line 280),
written out. -/
def initFinalPool : List String := ["D1", "D2", "D3", "D4", "D5", "D6"]

/-- Initial allocation state: the two pools plus the combined copy
`intermediate_pool = intermediate_small_pool + intermediate_final_pool`
(line 282). -/
def initAllocState : AllocState :=
  ⟨initSmallPool, initFinalPool, initSmallPool ++ initFinalPool, [], [], [], [], false, false⟩

/-- Run the allocation loop on the parsed mixes. -/
def allocMixes (mixes : List MixData) : AllocState := allocGo mixes initAllocState

/-- The `isSome` shape of a per-mix allocation (did the mix get a small
vessel / a final vessel?). -/
def allocSig (a : MixAlloc) : Bool × Bool := (a.small_vessel.isSome, a.final_vessel.isSome)

/-- The vessel-allocation shape the code gives a mix with `n` small-volume
components: none for `n = 0`, a final vessel only for `n = 1`, both for
`n ≥ 2`. -/
def expectedSig (n : Nat) : Bool × Bool :=
  if n > 1 then (true, true) else if n = 1 then (false, true) else (false, false)

/-- `"NaCl (150mM)"`, the reserved liquid name of line 179. -/
def naclName : String := "NaCl (150mM)"

/-- Line 345: `any(0 < v < 0.8 for v in mix_data['volumes'])` — note this
tests the RESCALED volumes, unlike the allocator's count of line 298. -/
def mixHasSmallB (md : MixData) : Bool := md.volumes.any smallB

/-- Python-dict lookup into a `String → Bool` dict modelled as a prepend
assoc list. -/
def lookupBool (m : List (String × Bool)) (k : String) : Option Bool :=
  (m.find? (fun p => p.1 = k)).map Prod.snd

/-- The pre-scan of lines 343-345: `mix_has_small_volumes[dest_well] = any(...)`.
Assignments prepend, so lookup sees the latest binding (dict overwrite). -/
def hasSmallMap (mixes : List MixData) : List (String × Bool) :=
  mixes.foldl (fun m md => (md.dest_well, mixHasSmallB md) :: m) []

/-- Lines 358-368: where one mix's NaCl volume is sent.  If the mix has any
(rescaled) small volume, to its final intermediate Eppendorf when one was
assigned, else falling back to the PCR destination well; otherwise directly
to the PCR destination well. -/
def naclDestsForMix (hasSmall : Bool) (finalOpt : Option String) (dest : String)
    (vol : ℚ) : List (Loc × ℚ) :=
  if hasSmall then
    match finalOpt with
    | some f => [(Loc.plasmid f, vol)]
    | none => [(Loc.pcr dest, vol)]
  else [(Loc.pcr dest, vol)]

/-- `defaultdict(float)` accumulation (line 370): add `v` to key `k`,
appending a fresh key at the end (iteration is in first-insertion order). -/
def addTotal (l : List (String × ℚ)) (k : String) (v : ℚ) : List (String × ℚ) :=
  match l with
  | [] => [(k, v)]
  | (k', v') :: rest =>
    if k' = k then (k', v' + v) :: rest else (k', v') :: addTotal rest k v

/-- `defaultdict(list)` accumulation (line 371). -/
def addDests (l : List (String × List (Loc × ℚ))) (k : String) (ds : List (Loc × ℚ)) :
    List (String × List (Loc × ℚ)) :=
  match l with
  | [] => [(k, ds)]
  | (k', ds') :: rest =>
    if k' = k then (k', ds' ++ ds) :: rest else (k', ds') :: addDests rest k ds

/-- `nacl_totals` / `nacl_dests` after the aggregation loop of lines 348-371. -/
structure NaClPlan where
  totals : List (String × ℚ)
  dests : List (String × List (Loc × ℚ))
  crashed : Bool
deriving DecidableEq, Repr

/-- The aggregation loop of lines 348-371.  `volumes[-1]` on an empty list
raises `IndexError` in Python (recorded as `crashed`); a nonpositive NaCl
volume is skipped; otherwise the destination(s) are resolved via
`naclDestsForMix` using the pre-scanned `mix_has_small_volumes` dict and the
`assigned_final_wells` dict. -/
def naclCollect (mixes : List MixData) (assignedFinal : List (String × String)) :
    NaClPlan :=
  let hsm := hasSmallMap mixes
  mixes.foldl (fun plan md =>
    if plan.crashed then plan
    else if md.volumes.isEmpty then { plan with crashed := true }
    else
      if (md.volumes.getLastD 0) ≤ 0 then plan
      else
        { plan with
          totals := addTotal plan.totals (md.source_wells.getLastD "")
            (md.volumes.getLastD 0)
          dests := addDests plan.dests (md.source_wells.getLastD "")
            (naclDestsForMix ((lookupBool hsm md.dest_well).getD false)
              (lookupStr assignedFinal md.dest_well) md.dest_well
              (md.volumes.getLastD 0)) }) ⟨[], [], false⟩

/-- The greedy grouping loop of lines 392-403: accumulate destinations while
`current_sum + vol ≤ max_vol - buffer`; when the next volume would overflow,
close the current group (which is the empty list if the very first volume
already overflows) and seed a fresh one; finally append the running group if
nonempty. -/
def packLoop (ds : List (Loc × ℚ)) (group : List (Loc × ℚ)) (currentSum : ℚ)
    (maxVol buffer : ℚ) : List (List (Loc × ℚ)) :=
  match ds with
  | [] => if group.isEmpty then [] else [group]
  | (d, v) :: rest =>
    if currentSum + v ≤ maxVol - buffer then
      packLoop rest (group ++ [(d, v)]) (currentSum + v) maxVol buffer
    else
      group :: packLoop rest [(d, v)] v maxVol buffer

/-- The dispense groups built for one source's destination list. -/
def packGroups (ds : List (Loc × ℚ)) (maxVol buffer : ℚ) : List (List (Loc × ℚ)) :=
  packLoop ds [] 0 maxVol buffer

/-- C6 witness input: one mix with no small volume, one with exactly one,
one with two (NaCl last, all volumes nonnegative). -/
def c6origs : List (List ℚ × List String × String) :=
  [([5, 10], (["A1", "B1"], "A1")),
   ([2/5, 10], (["A1", "B1"], "A2")),
   ([1/2, 1/2, 10], (["A1", "A2", "B1"], "A3"))]

/-- First mix of the C3 failing input: two sub-0.8 components. -/
def c3mixA : MixData := mkMixData [1/2, 1/2, 10] ["A1", "A2", "B1"] "A1"

/-- Second mix of the C3 failing input: exactly one sub-0.8 component. -/
def c3mixB : MixData := mkMixData [2/5, 10] ["A3", "B1"] "A2"

/-- A mix with two sub-0.8 components, used to drive the allocator to
exhaustion when repeated 7 times (the small pool holds 6 vessels). -/
def c5mix : MixData := mkMixData [1/2, 1/2, 10] ["A1", "A2", "B1"] "M1"

/-- Seven two-stage mixes: one more than the small pool can serve. -/
def c5mixes : List MixData := [c5mix, c5mix, c5mix, c5mix, c5mix, c5mix, c5mix]

/-- The single mix of the C2 counterexample: exactly one sub-0.8 plasmid
volume (0.4 µL), one normal plasmid volume and a NaCl volume of 10 µL. -/
def c2mix : MixData := mkMixData [5, 2/5, 10] ["A1", "A2", "B1"] "A1"

/-- Destination list for the C4 witness: two wells, both under the 48 µL cap
of the 50 µL pipette. -/
def c4ds : List (Loc × ℚ) := [(Loc.pcr "A1", 10), (Loc.pcr "A2", 45)]

/-- Python `str.strip()` (whitespace at both ends), written structurally so
that it evaluates in the kernel. -/
def pyStrip (s : String) : String :=
  String.mk (((s.data.dropWhile Char.isWhitespace).reverse.dropWhile
    Char.isWhitespace).reverse)

/-- Digit-string to number; `none` unless the string is 1+ decimal digits. -/
def parseDigits? (cs : List Char) : Option Nat :=
  if cs.isEmpty || !(cs.all Char.isDigit) then none
  else some (cs.foldl (fun n c => 10 * n + (c.toNat - 48)) 0)

/-- `str.split('.')` on a character list: every dot opens a new chunk. -/
def splitDotAux : List Char → List Char → List (List Char)
  | [], acc => [acc.reverse]
  | c :: rest, acc =>
    if c = '.' then acc.reverse :: splitDotAux rest []
    else splitDotAux rest (c :: acc)

/-- Python `float(s)` restricted to the plain decimal literals
(`"10"`, `"0.4"`, `"-1.5"`, `".5"`, `"5."`) that layout tables contain;
scientific notation and specials are out of scope and yield `none`
(they would not change any claim under study). -/
def parseDecimal? (s : String) : Option ℚ :=
  let sb : ℚ × List Char :=
    match s.data with
    | '-' :: rest => (-1, rest)
    | '+' :: rest => (1, rest)
    | cs => (1, cs)
  match splitDotAux sb.2 [] with
  | [intPart] => (parseDigits? intPart).map (fun n => sb.1 * n)
  | [intPart, fracPart] =>
    if intPart.isEmpty && fracPart.isEmpty then none
    else
      match (if intPart.isEmpty then some 0 else parseDigits? intPart),
            (if fracPart.isEmpty then some 0 else parseDigits? fracPart) with
      | some ip, some fp =>
        some (sb.1 * ((ip : ℚ) + (fp : ℚ) / (10 : ℚ) ^ fracPart.length))
      | _, _ => none
  | _ => none

/-- The Python `IndexError` message (lines 206-275 are wrapped in
`try/except` and the pause shows `str(e)`). -/
def indexErrMsg : String := "list index out of range"

/-- The inner loop of lines 214-225: for each column index, skip blank
volume cells, fail on unparsable floats (`ValueError`), skip negative
volumes, and otherwise record the volume together with the source-well cell
(`csv_data[source_row_index][i]`, raising `IndexError` when the source row
or the cell is absent; an empty cell falls back to `f"A{i+1}"`). -/
def parseCells (volRow : List String) (srcRow? : Option (List String)) :
    List Nat → Except String (List ℚ × List String)
  | [] => .ok ([], [])
  | i :: rest =>
    let cell := pyStrip (volRow.getD i "")
    if cell.isEmpty then parseCells volRow srcRow? rest
    else
      match parseDecimal? cell with
      | none => .error ("could not convert string to float: '" ++ cell ++ "'")
      | some v =>
        if v < 0 then parseCells volRow srcRow? rest
        else
          match srcRow? with
          | none => .error indexErrMsg
          | some srcRow =>
            match srcRow.get? i with
            | none => .error indexErrMsg
            | some sc =>
              let s := pyStrip sc
              let s := if s.isEmpty then "A" ++ toString (i + 1) else s
              match parseCells volRow srcRow? rest with
              | .error e => .error e
              | .ok (vs, ss) => .ok (v :: vs, s :: ss)

/-- Line 257: `csv_data[dest_row_index][0].strip() if csv_data[dest_row_index]
else "A1"` — the destination row is row `15*m`, present whenever the volume
row `15*m+12` is (so the `getD` default is never the deciding case), and an
EMPTY row silently falls back to well "A1". -/
def destWellOf (table : List (List String)) (m : Nat) : String :=
  match table.getD (m * 15) [] with
  | [] => "A1"
  | c :: _ => pyStrip c

/-- One iteration of the mix-parsing loop (lines 205-264): volume row at
`12 + 15*m` (`IndexError` when absent), source row at `13 + 15*m`, columns
`1 .. min(max_plasmid_count + 1, len(volume_row)) - 1`, then rescaling and
the destination well. -/
def parseMix (table : List (List String)) (maxP m : Nat) : Except String MixData :=
  match table.get? (12 + m * 15) with
  | none => .error indexErrMsg
  | some volRow =>
    let n := min (maxP + 1) volRow.length
    match parseCells volRow (table.get? (13 + m * 15)) (List.range' 1 (n - 1)) with
    | .error e => .error e
    | .ok (vols, srcs) => .ok (mkMixData vols srcs (destWellOf table m))

/-- The loop of line 205 over `range(mix_count)`; the first failure aborts
the whole parse (the `except` at line 273 catches it outside the loop). -/
def parseMixes (table : List (List String)) (maxP : Nat) :
    Nat → Nat → Except String (List MixData)
  | _, 0 => .ok []
  | m, k + 1 =>
    match parseMix table maxP m with
    | .error e => .error e
    | .ok md =>
      match parseMixes table maxP (m + 1) k with
      | .error e => .error e
      | .ok rest => .ok (md :: rest)

/-- Parse all `mixCount` mixes. -/
def parseAll (table : List (List String)) (maxP mixCount : Nat) :
    Except String (List MixData) :=
  parseMixes table maxP 0 mixCount

/-- The index of the first mix whose parse fails (derived bookkeeping: the
Python error message does not carry it). -/
def parseFailIdx (table : List (List String)) (maxP : Nat) :
    Nat → Nat → Option Nat
  | _, 0 => none
  | m, k + 1 =>
    match parseMix table maxP m with
    | .error _ => some m
    | .ok _ => parseFailIdx table maxP (m + 1) k

/-- The cell cleaning of line 98 (BOM removal elided; whitespace stripped). -/
def cleanTable (table : List (List String)) : List (List String) :=
  table.map (fun row => row.map pyStrip)

/-- `all_plasmid_wells.setdefault(name, []).append(well)` (line 161):
append the well under the name, adding a fresh name at the end (dict
insertion order). -/
def addNameWell (l : List (String × List String)) (name well : String) :
    List (String × List String) :=
  match l with
  | [] => [(name, [well])]
  | (n, ws) :: rest =>
    if n = name then (n, ws ++ [well]) :: rest
    else (n, ws) :: addNameWell rest name well

/-- `list(dict.fromkeys(wells))` (line 165): drop duplicates keeping the
first occurrence of each entry. -/
def dedupFirst : List String → List String
  | [] => []
  | x :: xs => x :: dedupFirst (xs.filter (fun y => y ≠ x))
termination_by l => l.length
decreasing_by
  simp only [List.length_cons]
  exact Nat.lt_succ_of_le (List.length_filter_le _ _)

/-- One name-row/well-row block of the pre-scan (lines 154-161): columns
`1 .. len(names)-1`; blank names skipped; the well cell is used only when
the column exists in the well row and is nonblank. -/
def collectNamesBlock (names wells : List String)
    (apw : List (String × List String)) : List (String × List String) :=
  (List.range' 1 (names.length - 1)).foldl (fun apw i =>
    let name := pyStrip (names.getD i "")
    if name.isEmpty then apw
    else
      let well := if i < wells.length then pyStrip (wells.getD i "") else ""
      if well.isEmpty then apw else addNameWell apw name well) apw

/-- Lines 145-165: name rows at every multiple of 15 within the table, well
rows 13 later (blocks whose well row falls outside the table are skipped),
then the per-name well lists are deduplicated. -/
def allPlasmidWells (table : List (List String)) : List (String × List String) :=
  let blocks := (List.range ((table.length + 14) / 15)).map (fun k => 15 * k)
  let apw := blocks.foldl (fun apw r =>
    if 13 + r < table.length then
      collectNamesBlock (table.getD r []) (table.getD (r + 13) []) apw
    else apw) []
  apw.map (fun p => (p.1, dedupFirst p.2))

/-- Lines 168-176: `plasmid_well_map[well] = name` for every registered
well, in dict iteration order; entries are prepended so lookup sees the
most recent assignment. -/
def wellMapOfPlasmids (apw : List (String × List String)) :
    List (String × String) :=
  apw.foldl (fun m p => p.2.foldl (fun m w => (w, p.1) :: m) m) []

/-- Lines 186-197: per mix, the last nonblank cell of the source-well row
(row `13 + 15*m`) is the mix's NaCl well. -/
def naclWellEntries (table : List (List String)) (mixCount : Nat) : List String :=
  (List.range mixCount).foldl (fun acc m =>
    if 13 + 15 * m < table.length then
      match (((table.getD (13 + 15 * m) []).map pyStrip).filter
          (fun c => !c.isEmpty)).getLast? with
      | none => acc
      | some w => acc ++ [w]
    else acc) []

/-- The full `plasmid_well_map` with the NaCl wells registered last
(overwriting colliding plasmid registrations, as dict assignment does). -/
def buildWellMap (table : List (List String)) (mixCount : Nat) :
    List (String × String) :=
  (naclWellEntries table mixCount).foldl (fun m w => (w, naclName) :: m)
    (wellMapOfPlasmids (allPlasmidWells table))

/-- `sum(tiprack.rows(), [])`: the 96 tip positions in row-major order. -/
def rack96 : List String :=
  ["A", "B", "C", "D", "E", "F", "G", "H"].flatMap (fun r =>
    (List.range' 1 12).map (fun c => r ++ toString c))

/-- Mutable run state of the execution phases: the two tip queues, the
reserve 50 µL rack, the action trace so far, and whether an uncaught Python
exception (`KeyError` on a missing vessel assignment) has ended the run. -/
structure ExecSt where
  tips50 : List String
  reserve50 : List String
  tips200 : List String
  trace : List Action
  crashed : Bool
deriving Repr

/-- Append one action. -/
def emit (st : ExecSt) (a : Action) : ExecSt := { st with trace := st.trace ++ [a] }

/-- Append several actions. -/
def emits (st : ExecSt) (acts : List Action) : ExecSt :=
  { st with trace := st.trace ++ acts }

/-- `swap_rack50` (lines 125-134): move the exhausted rack to C4, the
reserve to B1, and rebuild `tips50_by_row` from the incoming rack's rows. -/
def swapRack50 (st : ExecSt) : ExecSt :=
  { st with
    tips50 := st.reserve50
    reserve50 := rack96
    trace := st.trace ++
      [Action.comment "====== SWAPPING 50 µL TIP RACK ======",
       Action.moveLabware "tiprack_50" "C4",
       Action.moveLabware "tiprack_50_reserve" "B1"] }

/-- p50 pickup with the `if not tips50_by_row: swap_rack50()` guard present
at every p50 pickup site, then `tips50_by_row.pop(0)`. -/
def pick50 (st : ExecSt) : ExecSt :=
  let st := if st.tips50.isEmpty then swapRack50 st else st
  { st with tips50 := st.tips50.tail,
            trace := st.trace ++ [Action.pickUpTip 50 (st.tips50.headD "")] }

/-- p1000 pickup, `tips200_by_row.pop(0)` (Python raises on an empty rack;
the runs under study never exhaust it). -/
def pick200 (st : ExecSt) : ExecSt :=
  { st with tips200 := st.tips200.tail,
            trace := st.trace ++ [Action.pickUpTip 1000 (st.tips200.headD "")] }

/-- `nacl_dests[source]` lookup at line 375. -/
def lookupDests (l : List (String × List (Loc × ℚ))) (k : String) :
    List (Loc × ℚ) :=
  ((l.find? (fun p => p.1 = k)).map Prod.snd).getD []

/-- One source well's NaCl execution (lines 374-415): pipette selection by
`total + buffer ≤ 50`, tip pickup, greedy grouping, then — exactly when the
final running group is nonempty, i.e. when the destination list is — one
aspirate of `group total + buffer`, one dispense per destination and a
blow-out per group, and a tip drop; finally a progress comment. -/
def naclExecOne (src : String) (total : ℚ) (destList : List (Loc × ℚ))
    (st : ExecSt) : ExecSt :=
  let buffer : ℚ := 2
  let maxVol : ℚ := if total + buffer ≤ 50 then 50 else 200
  let cls : Nat := if total + buffer ≤ 50 then 50 else 1000
  let st := if cls = 50 then pick50 st else pick200 st
  let st :=
    if destList.isEmpty then st
    else
      let st := (packGroups destList maxVol buffer).foldl (fun st g =>
        emits st ([Action.aspirate cls ((g.map Prod.snd).sum + buffer) (Loc.plasmid src)]
          ++ g.map (fun p => Action.dispense cls p.2 p.1)
          ++ [Action.blowOut cls (some (Loc.plasmid src))])) st
      emit st (Action.dropTip cls)
  emit st (Action.comment ("Distributed NaCl from " ++ src))

/-- The loop over `nacl_totals.items()` (line 374), in insertion order. -/
def naclExec (plan : NaClPlan) (st : ExecSt) : ExecSt :=
  plan.totals.foldl (fun st p =>
    naclExecOne p.1 p.2 (lookupDests plan.dests p.1) st) st

/-- Premix of one distinct plasmid source (lines 443-456): p1000 tip, six
in-place aspirate/dispense cycles of 200 µL, blow-out, drop. -/
def premixOne (src : String) (st : ExecSt) : ExecSt :=
  let st := pick200 st
  let st := emit st (Action.comment ("Premix plasmid in " ++ src))
  let st := (List.range 6).foldl (fun st _ =>
    emits st [Action.aspirate 1000 200 (Loc.plasmid src),
              Action.dispense 1000 200 (Loc.plasmid src)]) st
  emits st [Action.blowOut 1000 (some (Loc.plasmid src)), Action.dropTip 1000]

/-- The premix loop of lines 437-456: premix each non-NaCl source well not
yet premixed in this batch (the liquid name resolved through
`plasmid_well_map`, default "Unknown"). -/
def premixPhase (wm : List (String × String)) (premixFlag : Bool) (md : MixData)
    (acc : List String × ExecSt) : List String × ExecSt :=
  (md.volumes.zip md.source_wells).foldl (fun acc p =>
    let name := (lookupStr wm p.2).getD "Unknown"
    if name ≠ naclName ∧ premixFlag = true ∧ acc.1.contains p.2 = false then
      (acc.1 ++ [p.2], premixOne p.2 acc.2)
    else acc) acc

/-- Lines 460-471: partition non-NaCl components into "small" (original
volume `v/scale` in (0, 0.8); staged at `v * 10`) and "normal". -/
def partitionSmalls (wm : List (String × String)) (md : MixData) :
    List (ℚ × String) × List (ℚ × String) :=
  (md.volumes.zip md.source_wells).foldl (fun acc p =>
    let name := (lookupStr wm p.2).getD "Unknown"
    if name = naclName then acc
    else if 0 < p.1 / mixScale md ∧ p.1 / mixScale md < MIN_RELIABLE_VOLUME then
      (acc.1 ++ [(p.1 * 10, p.2)], acc.2)
    else (acc.1, acc.2 ++ [p]))
    ([], [])

/-- One raw small-aliquot transfer into the small staging vessel (lines
482-500): p50 for volumes in (0, 50], p1000 for (50, 200], silently nothing
otherwise. -/
def smallTransfer (dstWell : String) (p : ℚ × String) (st : ExecSt) : ExecSt :=
  if 0 < p.1 ∧ p.1 ≤ 50 then
    emits (pick50 st)
      [Action.aspirate 50 p.1 (Loc.plasmid p.2),
       Action.dispense 50 p.1 (Loc.plasmid dstWell),
       Action.blowOut 50 none, Action.dropTip 50]
  else if 50 < p.1 ∧ p.1 ≤ 200 then
    emits (pick200 st)
      [Action.aspirate 1000 p.1 (Loc.plasmid p.2),
       Action.dispense 1000 p.1 (Loc.plasmid dstWell),
       Action.blowOut 1000 none, Action.dropTip 1000]
  else st

/-- Lines 505-528: mix the pooled small volumes and move them (divided back
by the 10× staging factor) from the small vessel to the final vessel; only
the p50 branch mixes first. -/
def intermediateTransfer (smallWell finalWell : String) (totalIntermediate : ℚ)
    (st : ExecSt) : ExecSt :=
  if totalIntermediate / 10 ≤ 50 then
    emits (pick50 st)
      [Action.mixAt 50 3 (4/5 * totalIntermediate) (Loc.plasmid smallWell),
       Action.aspirate 50 (totalIntermediate / 10) (Loc.plasmid smallWell),
       Action.dispense 50 (totalIntermediate / 10) (Loc.plasmid finalWell),
       Action.blowOut 50 none, Action.dropTip 50]
  else
    emits (pick200 st)
      [Action.aspirate 1000 (totalIntermediate / 10) (Loc.plasmid smallWell),
       Action.dispense 1000 (totalIntermediate / 10) (Loc.plasmid finalWell),
       Action.blowOut 1000 none, Action.dropTip 1000]

/-- Lines 540-556: a single raw small aliquot goes straight to the final
vessel at original scale. -/
def oneSmallTransfer (finalWell : String) (vol : ℚ) (src : String)
    (st : ExecSt) : ExecSt :=
  if vol ≤ 50 then
    emits (pick50 st)
      [Action.aspirate 50 vol (Loc.plasmid src),
       Action.dispense 50 vol (Loc.plasmid finalWell),
       Action.blowOut 50 none, Action.dropTip 50]
  else
    emits (pick200 st)
      [Action.aspirate 1000 vol (Loc.plasmid src),
       Action.dispense 1000 vol (Loc.plasmid finalWell),
       Action.blowOut 1000 none, Action.dropTip 1000]

/-- Lines 558-575 and 607-624: one normal-volume component transfer to
`dst`, skipping nonpositive volumes; p50 for at most 50 µL, else p1000. -/
def normalTransfer (dst : Loc) (st : ExecSt) (p : ℚ × String) : ExecSt :=
  if p.1 ≤ 0 then st
  else if p.1 ≤ 50 then
    emits (pick50 st)
      [Action.aspirate 50 p.1 (Loc.plasmid p.2),
       Action.dispense 50 p.1 dst,
       Action.blowOut 50 (some dst), Action.dropTip 50]
  else
    emits (pick200 st)
      [Action.aspirate 1000 p.1 (Loc.plasmid p.2),
       Action.dispense 1000 p.1 dst,
       Action.blowOut 1000 (some dst), Action.dropTip 1000]

/-- Lines 577-600: mix the final vessel (`min(total * 0.8, 50)`) and move
the back-calculated total volume to the PCR destination well. -/
def finalTransfer (md : MixData) (finalWell : String) (st : ExecSt) : ExecSt :=
  let total := totalVolume577 md
  let st := emit st (Action.comment ("Final transfer to PCR well " ++ md.dest_well))
  let cls : Nat := if total ≤ 50 then 50 else 1000
  let st := if total ≤ 50 then pick50 st else pick200 st
  emits st
    [Action.mixAt cls 3 (min (total * (4/5)) 50) (Loc.plasmid finalWell),
     Action.aspirate cls total (Loc.plasmid finalWell),
     Action.dispense cls total (Loc.pcr md.dest_well),
     Action.blowOut cls (some (Loc.pcr md.dest_well)), Action.dropTip cls]

/-- One mix's transfer execution (lines 427-624): premixing, partition, the
small-volume staging, the normal transfers (into the final vessel when one
is in play, else straight to the PCR well), and the final transfer.  A
missing `assigned_small_wells[dest]` or `assigned_final_wells[dest]` is the
Python `KeyError` that ends the run (`crashed`).  A one-small mix whose
staged volume is nonpositive `continue`s to the next mix (unreachable for
parsed data, modelled faithfully). -/
def execMix (wm : List (String × String))
    (assignedS assignedF : List (String × String)) (premixFlag : Bool)
    (acc : List String × ExecSt) (md : MixData) : List String × ExecSt :=
  if acc.2.crashed then acc
  else
    let acc := premixPhase wm premixFlag md acc
    let pr := acc.1
    let st := emit acc.2 (Action.comment ("Transferring to " ++ md.dest_well))
    let parts := partitionSmalls wm md
    if parts.1.isEmpty then
      (pr, parts.2.foldl (normalTransfer (Loc.pcr md.dest_well)) st)
    else if parts.1.length > 1 then
      match lookupStr assignedS md.dest_well with
      | none => (pr, { st with crashed := true })
      | some sw =>
        let st := parts.1.foldl (fun st p => smallTransfer sw p st) st
        match lookupStr assignedF md.dest_well with
        | none => (pr, { st with crashed := true })
        | some fw =>
          let st := intermediateTransfer sw fw (parts.1.map Prod.fst).sum st
          let st := parts.2.foldl (normalTransfer (Loc.plasmid fw)) st
          (pr, finalTransfer md fw st)
    else
      match lookupStr assignedF md.dest_well with
      | none => (pr, { st with crashed := true })
      | some fw =>
        if (parts.1.headD (0, "")).1 / 10 ≤ 0 then (pr, st)
        else
          let st := oneSmallTransfer fw ((parts.1.headD (0, "")).1 / 10)
            ((parts.1.headD (0, "")).2) st
          let st := parts.2.foldl (normalTransfer (Loc.plasmid fw)) st
          (pr, finalTransfer md fw st)

/-- `range(0, mix_count, batch_size)` with `batch_size = 12`: the mixes in
chunks of 12. -/
def chunks12 : List MixData → List (List MixData)
  | [] => []
  | md :: rest => (md :: rest.take 11) :: chunks12 (rest.drop 11)
termination_by ms => ms.length
decreasing_by
  simp only [List.length_cons, List.length_drop]
  omega

/-- The batch loop of lines 419-426: per batch a progress comment, a fresh
premixed-sources set, then each mix in order; a crash ends everything. -/
def execBatches (wm : List (String × String))
    (assignedS assignedF : List (String × String)) (premixFlag : Bool)
    (ms : List MixData) (st : ExecSt) : ExecSt :=
  (chunks12 ms).foldl (fun st batch =>
    if st.crashed then st
    else
      let st := emit st (Action.comment "Processing batch")
      (batch.foldl (execMix wm assignedS assignedF premixFlag) ([], st)).2) st

/-- Everything the run does after a successful parse (lines 279-630):
vessel allocation, latch close, NaCl aggregation and multi-dispensing, then
the batched per-mix transfers; an uncaught exception (`crashed`) truncates
the trace at the failing point, exactly as a Python exception would. -/
def runFromMixes (wm : List (String × String)) (mixes : List MixData)
    (premixFlag : Bool) (start50 start200 : String) : List Action :=
  let ar := allocMixes mixes
  if ar.crashed then ar.events
  else
    let plan := naclCollect mixes ar.assigned_final
    if plan.crashed then ar.events ++ [Action.latchClose]
    else
      let st0 : ExecSt :=
        ⟨rack96.dropWhile (fun w => w ≠ start50), rack96,
         rack96.dropWhile (fun w => w ≠ start200), [], false⟩
      let st1 := naclExec plan st0
      let st2 := execBatches wm ar.assigned_small ar.assigned_final premixFlag
        mixes st1
      ar.events ++ [Action.latchClose] ++ st2.trace ++
        (if st2.crashed then []
         else [Action.comment "Protocol complete", Action.latchOpen])

/-- The whole `run` of `DNAmix_final.py` as an action trace: clean the
table, parse (a failure pauses with `"Error parsing CSV: " + str(e)` and
returns before any pipetting), then hand over to the execution phases. -/
def runTrace (rawTable : List (List String)) (maxP mixCount : Nat)
    (premixFlag : Bool) (start50 start200 : String) : List Action :=
  let table := cleanTable rawTable
  match parseAll table maxP mixCount with
  | .error e => [Action.pause ("Error parsing CSV: " ++ e)]
  | .ok mixes =>
    runFromMixes (buildWellMap table mixCount) mixes premixFlag start50 start200

/-- Is an action one of the physical liquid-handling steps named by the
parse-abort claim (tip pickup, aspirate, dispense)? -/
def isPhysical : Action → Bool
  | Action.pickUpTip _ _ => true
  | Action.aspirate _ _ _ => true
  | Action.dispense _ _ _ => true
  | _ => false

/-- An empty layout table: parsing mix 0 already fails. -/
def c8T1 : List (List String) := []

/-- A table with one complete 15-row block (mix 0 parses fine) and nothing
after it: parsing mix 1 fails. -/
def c8T2 : List (List String) :=
  [["A1", "P1"], [], [], [], [], [], [], [], [], [], [], [],
   ["", "5"], ["", "A1"], []]

/-- A table whose destination-well row (row 0) is present but empty. -/
def c10table : List (List String) :=
  [[], [], [], [], [], [], [], [], [], [], [], [],
   ["", "5"], ["", "B2"], []]

/-- A background mix for the C5 run: two sub-0.8 components and a zero NaCl
volume (so the NaCl dispatch skips it). -/
def c5bmix (d : String) : MixData := mkMixData [2/5, 2/5, 0] ["A1", "A2", "B1"] d

/-- The last mix of the C5 run: two sub-0.8 components and 10 µL of NaCl. -/
def c5lastmix : MixData := mkMixData [2/5, 2/5, 10] ["A1", "A2", "B1"] "M7"

/-- Seven two-stage mixes — one more than the small pool holds — with NaCl
only in the last one. -/
def c5rmixes : List MixData :=
  [c5bmix "M1", c5bmix "M2", c5bmix "M3", c5bmix "M4", c5bmix "M5",
   c5bmix "M6", c5lastmix]

/-- The plasmid-well map of the C5 run: A1 and A2 hold plasmids, B1 NaCl. -/
def c5wm : List (String × String) := [("A1", "P1"), ("A2", "P2"), ("B1", naclName)]

/-- `st'` extends `st` when its trace appends to `st`'s: every execution
helper only ever appends actions. -/
def TraceExtends (st' st : ExecSt) : Prop := ∃ t, st'.trace = st.trace ++ t

end DNAmix

namespace Aliquoting

/-- Robot actions of the aliquoting protocol (`DNAmix_aliquoting_final.py`,
single p1000 instrument; well names refer to the PCR mix plate, the cell
plate or the reagent rack as the step dictates). -/
inductive AqAction where
  | pickUpTip (tip : String)
  | dropTip
  | aspirate (vol : ℚ) (well : String)
  | dispense (vol : ℚ) (well : String)
  | airGap (vol : ℚ)
  | mixAt (reps : Nat) (vol : ℚ) (well : String)
  | pause (msg : String)
  | delayMinutes (n : Nat)
  | latchClose
  | latchOpen
deriving DecidableEq, Repr

/-- The user parameters of `DNAmix_aliquoting_final.py` consumed by `run`. -/
structure AqParams where
  mix_count : Nat
  reagent_vol : ℚ
  aliquot_vol : ℚ
  reagent_eppendorf : String
  mix_position : String
  mix_rows_count : Nat
  mix_columns_per_row : Nat
  delay : Nat
  premix : Bool
  premixvol : ℚ
  starting_tip_200 : String
  starting_tip_1000 : String
deriving Repr

/-- `rows = "ABCDEFGH"` (line 205). -/
def plateRows : List Char := ['A', 'B', 'C', 'D', 'E', 'F', 'G', 'H']

/-- Lines 206-208: `rows.index(mix_position[0].upper())` and
`int(mix_position[1:])`; `none` models the Python `ValueError` raised for a
position outside what the parameter UI offers. -/
def aqGeom (p : AqParams) : Option (Nat × Nat) :=
  match plateRows.findIdx? (fun r => r == (p.mix_position.data.headD ' ').toUpper),
        DNAmix.parseDigits? p.mix_position.data.tail with
  | some ri, some sc => some (ri, sc)
  | _, _ => none

/-- Lines 215-216: `selected_rows = rows[row_index : row_index +
mix_rows_count]` (Python slicing truncates) crossed with columns
`start_col .. start_col + mix_columns_per_row - 1`. -/
def aqAllWells (p : AqParams) : List String :=
  match aqGeom p with
  | none => []
  | some (ri, sc) =>
    ((plateRows.drop ri).take p.mix_rows_count).flatMap (fun r =>
      (List.range' sc p.mix_columns_per_row).map
        (fun c => r.toString ++ toString c))

/-- The reagent-distribution while-loop of lines 240-258: whenever the tip
holds less than one `reagent_vol`, premix (when enabled) and aspirate
`min(1000 * 0.9, remaining_wells * reagent_vol)`; then dispense
`reagent_vol` into the next mix well and air-gap 5 µL. -/
def distribLoop (p : AqParams) : List String → ℚ → List AqAction
  | [], _ => []
  | d :: rest, volInTip =>
    let toAsp : ℚ := min 900 ((rest.length + 1 : ℚ) * p.reagent_vol)
    (if volInTip < p.reagent_vol then
      (if p.premix then [AqAction.mixAt 3 p.premixvol p.reagent_eppendorf] else [])
        ++ [AqAction.aspirate toAsp p.reagent_eppendorf]
    else [])
    ++ [AqAction.dispense p.reagent_vol d, AqAction.airGap 5]
    ++ distribLoop p rest
      ((if volInTip < p.reagent_vol then toAsp else volInTip) - p.reagent_vol)

/-- One aliquoting iteration (lines 266-297): cell-plate block/column
geometry, tip choice by `aliquot_vol * 4 ≤ 200` (indexing the rack by the
per-class counter), high-speed mix, one four-aliquot aspirate and four
dispenses.  The accumulator carries (trace, counter_200, counter_1000). -/
def aliquotOne (p : AqParams) (tips200 tips1000 : List String)
    (acc : List AqAction × Nat × Nat) (iw : Nat × String) :
    List AqAction × Nat × Nat :=
  let block := (iw.1 / 6) % 4
  let col := (iw.1 % 6) + 1 + (if block = 2 ∨ block = 3 then 6 else 0)
  let rowsBlock := if block % 2 = 0 then ['A', 'B', 'C', 'D'] else ['E', 'F', 'G', 'H']
  let targets := rowsBlock.map (fun r => r.toString ++ toString col)
  let tcc : String × Nat × Nat :=
    if p.aliquot_vol * 4 ≤ 200 then (tips200.getD acc.2.1 "", acc.2.1 + 1, acc.2.2)
    else (tips1000.getD acc.2.2 "", acc.2.1, acc.2.2 + 1)
  (acc.1 ++ [AqAction.pickUpTip tcc.1, AqAction.mixAt 5 p.reagent_vol iw.2,
             AqAction.aspirate (p.aliquot_vol * 4) iw.2]
    ++ targets.map (fun t => AqAction.dispense p.aliquot_vol t)
    ++ [AqAction.dropTip], tcc.2)

/-- The `run` of `DNAmix_aliquoting_final.py` as an action trace plus an
optional fatal error.  Geometry validation (lines 211-220) pauses and
raises BEFORE the latch close and before any tip pickup when too many rows
are selected or when fewer wells exist than `mix_count`; otherwise: latch
close, first 1000 µL tip pickup, reagent distribution, tip drop, the
incubation delay, the aliquot loop, latch open. -/
def aqRun (p : AqParams) : List AqAction × Option String :=
  match aqGeom p with
  | none => ([], some "ValueError")
  | some (ri, _) =>
    if ri + p.mix_rows_count > plateRows.length then
      ([AqAction.pause "Error: Too many rows selected for the starting position."],
       some "Invalid row selection.")
    else if (aqAllWells p).length < p.mix_count then
      ([AqAction.pause "Error: not enough wells available for mix placement."],
       some "Not enough wells assigned for mixes.")
    else
      let dests := (aqAllWells p).take p.mix_count
      let tips1000 := DNAmix.rack96.dropWhile (fun w => w ≠ p.starting_tip_1000)
      let tips200 := DNAmix.rack96.dropWhile (fun w => w ≠ p.starting_tip_200)
      let tr := [AqAction.latchClose, AqAction.pickUpTip (tips1000.getD 0 "")]
      let tr := tr ++ distribLoop p dests 0
      let tr := tr ++ [AqAction.dropTip, AqAction.delayMinutes p.delay]
      let tr := (dests.enum.foldl (aliquotOne p tips200 tips1000) (tr, 0, 1)).1
      (tr ++ [AqAction.latchOpen], none)

/-- Is the action a tip pickup? -/
def isPickUp : AqAction → Bool
  | AqAction.pickUpTip _ => true
  | _ => false

/-- C9 witness parameters: 2 rows × 6 columns from C1 give 12 destination
wells, but 13 mixes are requested. -/
def c9params : AqParams :=
  ⟨13, 88, 20, "D6", "C1", 2, 6, 15, false, 2, "A1", "A1"⟩

end Aliquoting

-- ===================== theorems =====================

namespace DNAmix

theorem listMin_mem : ∀ (x : ℚ) (xs : List ℚ), xs.foldl min x = x ∨ xs.foldl min x ∈ xs := by
  intro x xs
  induction xs generalizing x with
  | nil => left; rfl
  | cons y ys ih =>
    rcases ih (min x y) with h | h
    · rcases min_choice x y with hm | hm
      · left; rw [List.foldl_cons, h, hm]
      · right; rw [List.foldl_cons, h, hm]; exact List.mem_cons_self _ _
    · right; exact List.mem_cons_of_mem _ h

theorem listMin_mem' (l : List ℚ) (h : l ≠ []) : listMin l ∈ l := by
  cases l with
  | nil => exact absurd rfl h
  | cons x xs =>
    rcases listMin_mem x xs with h' | h'
    · rw [listMin, h']; exact List.mem_cons_self _ _
    · exact List.mem_cons_of_mem _ h'

theorem smallB_iff (v : ℚ) : smallB v = true ↔ (0 < v ∧ v < MIN_RELIABLE_VOLUME) := by
  simp [smallB]

theorem rescaleFactor_pos (vols : List ℚ) : 0 < rescaleFactor vols := by
  unfold rescaleFactor
  set smalls := vols.filter smallB with hs
  have hmem : ∀ v ∈ smalls, 0 < v ∧ v < MIN_RELIABLE_VOLUME := by
    intro v hv
    rw [hs, List.mem_filter] at hv
    exact (smallB_iff v).mp hv.2
  by_cases he : smalls.isEmpty
  · simp [he]
  · have hne : smalls ≠ [] := by
      intro h; rw [h] at he; exact he rfl
    have hmin : 0 < MIN_RELIABLE_VOLUME := by norm_num [MIN_RELIABLE_VOLUME]
    by_cases hl : smalls.length > 1
    · have hsum : 0 < smalls.sum :=
        List.sum_pos _ (fun v hv => (hmem v hv).1) hne
      simp only [he, hl, if_true, if_false, Bool.false_eq_true]
      exact div_pos hmin hsum
    · have : 0 < listMin smalls := (hmem _ (listMin_mem' smalls hne)).1
      simp only [he, hl, if_false, Bool.false_eq_true]
      exact div_pos hmin this

theorem rescaleFactor_ne_zero (vols : List ℚ) : rescaleFactor vols ≠ 0 :=
  ne_of_gt (rescaleFactor_pos vols)

theorem rescalePair_fst (vols : List ℚ) :
    (rescalePair vols).1 = vols.map (fun v => v * rescaleFactor vols) := by
  unfold rescalePair
  by_cases he : (vols.filter smallB).isEmpty
  · simp only [he, if_true]
    have : rescaleFactor vols = 1 := by unfold rescaleFactor; simp [he]
    rw [this]
    simp
  · simp [he]

theorem mixScale_mkMixData (vols : List ℚ) (srcs : List String) (dest : String) :
    mixScale (mkMixData vols srcs dest) = rescaleFactor vols := by
  unfold mixScale mkMixData rescalePair
  by_cases he : (vols.filter smallB).isEmpty
  · have h1 : rescaleFactor vols = 1 := by unfold rescaleFactor; simp [he]
    simp only [he, if_true, h1]
    cases vols <;> simp [List.replicate_succ]
  · simp [he]

theorem mkMixData_volumes (vols : List ℚ) (srcs : List String) (dest : String) :
    (mkMixData vols srcs dest).volumes = vols.map (fun v => v * rescaleFactor vols) := by
  unfold mkMixData
  exact rescalePair_fst vols

theorem sum_map_mul (l : List ℚ) (c : ℚ) : (l.map (fun v => v * c)).sum = l.sum * c := by
  induction l with
  | nil => simp
  | cons x xs ih => simp [ih, add_mul]

theorem filter_pos_sum (l : List ℚ) (h : ∀ v ∈ l, 0 ≤ v) :
    (l.filter (fun v => decide (0 < v))).sum = l.sum := by
  induction l with
  | nil => simp
  | cons x xs ih =>
    have hx := h x (List.mem_cons_self _ _)
    have ihs := ih (fun v hv => h v (List.mem_cons_of_mem _ hv))
    by_cases hp : 0 < x
    · simp [List.filter_cons, hp, ihs]
    · have hx0 : x = 0 := le_antisymm (not_lt.mp hp) hx
      simp [List.filter_cons, hp, ihs, hx0]

/-- C1, counterexample.  By the layout convention the last component of a mix
is NaCl.  Take original volumes `[1, 1/2]`: the only plasmid volume is 1 µL
(not small) and the NaCl volume is 0.5 µL.  The claim's set S (small volumes
among non-NaCl components) is empty, so the claim demands `scale_factor = 1`;
the code (line 230 of `DNAmix_final.py`) filters ALL of `mix_volumes`, NaCl
included, and produces `0.8 / 0.5 = 8/5 ≠ 1`. -/
theorem C1_counterexample :
    [(1 : ℚ), 1/2].dropLast.filter smallB = [] ∧
    rescaleFactor [(1 : ℚ), 1/2] = 8/5 ∧
    rescaleFactor [(1 : ℚ), 1/2] ≠ 1 := by
  refine ⟨?_, ?_, ?_⟩
  · norm_num [smallB, MIN_RELIABLE_VOLUME, List.filter]
  · norm_num [rescaleFactor, smallB, listMin, MIN_RELIABLE_VOLUME, List.filter]
  · norm_num [rescaleFactor, smallB, listMin, MIN_RELIABLE_VOLUME, List.filter]

/-- C1, amended.  The rescaler of lines 229-252 uses the set S of volumes in
`(0, 0.8)` among ALL components of the mix, NaCl included (not just the
non-NaCl components): if S is empty the scale factor is 1, if S is a
singleton it is `0.8 / (that element)`, if `|S| > 1` it is `0.8 / sum S`,
and the factor is applied uniformly to every component volume. -/
theorem C1_amended (vols : List ℚ) :
    (vols.filter smallB = [] → rescaleFactor vols = 1) ∧
    (∀ s : ℚ, vols.filter smallB = [s] →
      rescaleFactor vols = MIN_RELIABLE_VOLUME / s) ∧
    ((vols.filter smallB).length > 1 →
      rescaleFactor vols = MIN_RELIABLE_VOLUME / (vols.filter smallB).sum) ∧
    (rescalePair vols).1 = vols.map (fun v => v * rescaleFactor vols) := by
  refine ⟨?_, ?_, ?_, rescalePair_fst vols⟩
  · intro h
    unfold rescaleFactor
    simp [h]
  · intro s h
    unfold rescaleFactor
    simp [h, listMin]
  · intro h
    have hne : ¬ (vols.filter smallB).isEmpty := by
      intro he
      rw [List.isEmpty_iff] at he
      rw [he] at h
      simp at h
    unfold rescaleFactor
    simp only [hne, h, if_true, if_false, Bool.false_eq_true]

/-- C1 witness: at original volumes `[1, 1/2]` the small set is the singleton
`[1/2]` and the scale factor is `0.8 / (1/2)`. -/
theorem C1_amended_witness :
    rescaleFactor [(1 : ℚ), 1/2] = MIN_RELIABLE_VOLUME / (1/2) :=
  (C1_amended [1, 1/2]).2.1 (1/2)
    (by norm_num [smallB, MIN_RELIABLE_VOLUME, List.filter])

/-- C7: for every mix with nonnegative parsed volumes, the sum of the
original volumes equals the sum of the rescaled volumes divided by the
mix's scale factor, and the back-calculated total of line 577
(`sum(v / scale_factor for v in volumes if v > 0)`) equals the original
(operator-intended) total. -/
theorem C7_rescaling_volume_preserving (vols : List ℚ) (srcs : List String)
    (dest : String) (hnn : ∀ v ∈ vols, 0 ≤ v) :
    vols.sum = (mkMixData vols srcs dest).volumes.sum /
        mixScale (mkMixData vols srcs dest) ∧
    totalVolume577 (mkMixData vols srcs dest) = vols.sum := by
  have hf : 0 < rescaleFactor vols := rescaleFactor_pos vols
  have hf0 : rescaleFactor vols ≠ 0 := ne_of_gt hf
  have hvols := mkMixData_volumes vols srcs dest
  have hscale := mixScale_mkMixData vols srcs dest
  constructor
  · rw [hvols, hscale, sum_map_mul, mul_div_cancel_right₀ _ hf0]
  · unfold totalVolume577
    rw [hvols, hscale]
    have hfilter : (vols.map (fun v => v * rescaleFactor vols)).filter
        (fun v => decide (0 < v)) =
        (vols.filter (fun v => decide (0 < v))).map
          (fun v => v * rescaleFactor vols) := by
      rw [List.filter_map]
      congr 1
      apply List.filter_congr
      intro v _
      simp only [Function.comp_apply, decide_eq_decide]
      constructor
      · intro hv
        have hdiv : 0 < v * rescaleFactor vols / rescaleFactor vols :=
          div_pos hv hf
        rwa [mul_div_cancel_right₀ _ hf0] at hdiv
      · intro hv
        exact mul_pos hv hf
    rw [hfilter, List.map_map]
    have hid : ((fun v => v / rescaleFactor vols) ∘ fun v => v * rescaleFactor vols)
        = fun v : ℚ => v := by
      funext v
      simp [mul_div_cancel_right₀ _ hf0]
    rw [hid]
    have hmapid : List.map (fun v : ℚ => v) (vols.filter (fun v => decide (0 < v)))
        = vols.filter (fun v => decide (0 < v)) := by simp
    rw [hmapid]
    exact filter_pos_sum vols hnn

theorem allocSmallCount_mkMixData (vols : List ℚ) (srcs : List String) (dest : String) :
    allocSmallCount (mkMixData vols srcs dest) = (vols.filter smallB).length := by
  have hf0 : rescaleFactor vols ≠ 0 := rescaleFactor_ne_zero vols
  unfold allocSmallCount
  rw [mkMixData_volumes, mixScale_mkMixData, List.filter_map]
  rw [List.length_map]
  congr 1
  apply List.filter_congr
  intro v _
  simp only [Function.comp_apply, mul_div_cancel_right₀ _ hf0, smallB]

theorem allocGo_sig_map (ms : List MixData) :
    ∀ st : AllocState, st.exhausted = false → st.crashed = false →
    (allocGo ms st).exhausted = false → (allocGo ms st).crashed = false →
    (allocGo ms st).allocs.map allocSig =
      st.allocs.map allocSig ++ ms.map (fun m => expectedSig (allocSmallCount m)) := by
  induction ms with
  | nil => intro st _ _ _ _; simp [allocGo]
  | cons md rest ih =>
    intro st hex hcr hex' hcr'
    rw [allocGo] at hex' hcr' ⊢
    by_cases hsf : md.scale_factors.isEmpty
    · rw [if_pos hsf] at hcr'
      simp at hcr'
    · rw [if_neg hsf] at hex' hcr' ⊢
      by_cases hcnt : allocSmallCount md > 1
      · rw [if_pos hcnt] at hex' hcr' ⊢
        by_cases hpools : (st.small_pool.isEmpty || st.final_pool.isEmpty) = true
        · rw [if_pos hpools] at hex'
          simp at hex'
        · rw [if_neg hpools] at hex' hcr' ⊢
          rw [ih _ (by simpa using hex) (by simpa using hcr) hex' hcr']
          simp [expectedSig, hcnt, allocSig]
      · rw [if_neg hcnt] at hex' hcr' ⊢
        by_cases hone : allocSmallCount md = 1
        · rw [if_pos hone] at hex' hcr' ⊢
          by_cases hcp : st.combined_pool.isEmpty
          · rw [if_pos hcp] at hex'
            simp at hex'
          · rw [if_neg hcp] at hex' hcr' ⊢
            rw [ih _ (by simpa using hex) (by simpa using hcr) hex' hcr']
            simp [expectedSig, hcnt, hone, allocSig]
        · rw [if_neg hone] at hex' hcr' ⊢
          rw [ih _ (by simpa using hex) (by simpa using hcr) hex' hcr']
          simp [expectedSig, hcnt, hone, allocSig]

theorem allocGo_exhaust_stops (ms : List MixData) :
    ∀ st : AllocState, st.exhausted = false →
    (allocGo ms st).exhausted = true →
    (allocGo ms st).allocs.length < st.allocs.length + ms.length ∧
    Action.pause exhaustMsg ∈ (allocGo ms st).events := by
  induction ms with
  | nil =>
    intro st hex hex'
    rw [allocGo] at hex'
    rw [hex] at hex'
    simp at hex'
  | cons md rest ih =>
    intro st hex hex'
    rw [allocGo] at hex' ⊢
    by_cases hsf : md.scale_factors.isEmpty
    · rw [if_pos hsf] at hex'
      rw [hex] at hex'
      simp at hex'
    · rw [if_neg hsf] at hex' ⊢
      by_cases hcnt : allocSmallCount md > 1
      · rw [if_pos hcnt] at hex' ⊢
        by_cases hpools : (st.small_pool.isEmpty || st.final_pool.isEmpty) = true
        · rw [if_pos hpools]
          refine ⟨by simp only [List.length_cons]; omega, by simp⟩
        · rw [if_neg hpools] at hex' ⊢
          have hrec := ih _ (by simpa using hex) hex'
          refine ⟨?_, hrec.2⟩
          have h1 := hrec.1
          simp at h1 ⊢
          omega
      · rw [if_neg hcnt] at hex' ⊢
        by_cases hone : allocSmallCount md = 1
        · rw [if_pos hone] at hex' ⊢
          by_cases hcp : st.combined_pool.isEmpty
          · rw [if_pos hcp]
            refine ⟨by simp only [List.length_cons]; omega, by simp⟩
          · rw [if_neg hcp] at hex' ⊢
            have hrec := ih _ (by simpa using hex) hex'
            refine ⟨?_, hrec.2⟩
            have h1 := hrec.1
            simp at h1 ⊢
            omega
        · rw [if_neg hone] at hex' ⊢
          have hrec := ih _ (by simpa using hex) hex'
          refine ⟨?_, hrec.2⟩
          have h1 := hrec.1
          simp at h1 ⊢
          omega

/-- C6: for every run whose allocation loop neither exhausts a pool nor
crashes, the allocation made for the i-th mix is determined by that mix's
small-volume count over the ORIGINAL (un-rescaled) volumes: zero small
components → no vessel, exactly one → a final vessel only, two or more →
one small and one final vessel, in mix processing order. -/
theorem C6_allocation_by_small_count (origs : List (List ℚ × List String × String))
    (hex : (allocMixes (origs.map (fun o => mkMixData o.1 o.2.1 o.2.2))).exhausted = false)
    (hcr : (allocMixes (origs.map (fun o => mkMixData o.1 o.2.1 o.2.2))).crashed = false) :
    (allocMixes (origs.map (fun o => mkMixData o.1 o.2.1 o.2.2))).allocs.map allocSig =
      origs.map (fun o => expectedSig ((o.1.filter smallB).length)) := by
  unfold allocMixes at hex hcr ⊢
  rw [allocGo_sig_map _ initAllocState rfl rfl hex hcr]
  simp only [initAllocState, List.map_nil, List.nil_append, List.map_map]
  apply List.map_congr_left
  intro o _
  simp [Function.comp_apply, allocSmallCount_mkMixData]

/-- C6 witness: on `c6origs` the allocator gives no vessel / final only /
small and final, respectively. -/
theorem C6_witness :
    (allocMixes (c6origs.map (fun o => mkMixData o.1 o.2.1 o.2.2))).allocs.map allocSig =
      c6origs.map (fun o => expectedSig ((o.1.filter smallB).length)) :=
  C6_allocation_by_small_count c6origs
    (by norm_num [c6origs, allocMixes, allocGo, initAllocState, initSmallPool,
      initFinalPool, mkMixData, rescalePair, rescaleFactor, smallB, listMin,
      MIN_RELIABLE_VOLUME, List.filter, allocSmallCount, mixScale, List.replicate,
      List.isEmpty, List.headD, List.head?, List.tail, expectedSig, allocSig])
    (by norm_num [c6origs, allocMixes, allocGo, initAllocState, initSmallPool,
      initFinalPool, mkMixData, rescalePair, rescaleFactor, smallB, listMin,
      MIN_RELIABLE_VOLUME, List.filter, allocSmallCount, mixScale, List.replicate,
      List.isEmpty, List.headD, List.head?, List.tail, expectedSig, allocSig])

/-- C5, amended (part proved generally): pool exhaustion emits the
user-visible pause message and breaks the allocation loop, so at least one
mix (the exhausted one) gets no allocation entry; it does NOT halt the run —
see `C5_counterexample` for a run that still dispenses NaCl afterwards. -/
theorem C5_amended (mixes : List MixData)
    (hex : (allocMixes mixes).exhausted = true) :
    (allocMixes mixes).allocs.length < mixes.length ∧
    Action.pause exhaustMsg ∈ (allocMixes mixes).events := by
  unfold allocMixes at hex ⊢
  have := allocGo_exhaust_stops mixes initAllocState rfl hex
  simpa [initAllocState] using this

/-- C3: the combined `intermediate_pool` of line 282 is an independent copy
of the two pools, so pops are not propagated between the combined list and
`intermediate_small_pool`/`intermediate_final_pool`.  Concretely: the first
mix (two small volumes) pops small vessel C1 and final vessel D1; the second
mix (one small volume) pops the combined pool's head — C1 again.  Two mixes
share vessel C1, contradicting the claim. -/
theorem C3_code_eval :
    (allocMixes [c3mixA, c3mixB]).allocs =
      [⟨some "C1", some "D1"⟩, ⟨none, some "C1"⟩] ∧
    ((allocMixes [c3mixA, c3mixB]).allocs.getD 0 ⟨none, none⟩).small_vessel =
      ((allocMixes [c3mixA, c3mixB]).allocs.getD 1 ⟨none, none⟩).final_vessel := by
  constructor
  · norm_num [c3mixA, c3mixB, allocMixes, allocGo, initAllocState, initSmallPool,
      initFinalPool, mkMixData, rescalePair, rescaleFactor, smallB, listMin,
      MIN_RELIABLE_VOLUME, List.filter, allocSmallCount, mixScale, List.replicate,
      List.isEmpty, List.headD, List.head?, List.tail, expectedSig, allocSig]
  · norm_num [c3mixA, c3mixB, allocMixes, allocGo, initAllocState, initSmallPool,
      initFinalPool, mkMixData, rescalePair, rescaleFactor, smallB, listMin,
      MIN_RELIABLE_VOLUME, List.filter, allocSmallCount, mixScale, List.replicate,
      List.isEmpty, List.headD, List.head?, List.tail, expectedSig, allocSig]

theorem rescaleFactor_of_filter_singleton (vols : List ℚ) (s : ℚ)
    (h : vols.filter smallB = [s]) :
    rescaleFactor vols = MIN_RELIABLE_VOLUME / s := by
  unfold rescaleFactor
  simp [h, listMin]

theorem packLoop_join (ds : List (Loc × ℚ)) :
    ∀ (group : List (Loc × ℚ)) (s mv b : ℚ),
    (packLoop ds group s mv b).flatten = group ++ ds := by
  induction ds with
  | nil =>
    intro group s mv b
    by_cases h : group.isEmpty
    · rw [List.isEmpty_iff] at h
      simp [packLoop, h]
    · simp [packLoop, h]
  | cons p rest ih =>
    intro group s mv b
    obtain ⟨d, v⟩ := p
    rw [packLoop]
    by_cases hc : s + v ≤ mv - b
    · rw [if_pos hc, ih]
      simp
    · rw [if_neg hc]
      simp [ih]

theorem packLoop_bounded (ds : List (Loc × ℚ)) :
    ∀ (group : List (Loc × ℚ)) (s mv b : ℚ),
    (group.map Prod.snd).sum = s → s ≤ mv - b →
    (∀ p ∈ ds, p.2 ≤ mv - b) →
    ∀ g ∈ packLoop ds group s mv b, (g.map Prod.snd).sum ≤ mv - b := by
  induction ds with
  | nil =>
    intro group s mv b hsum hcap _ g hg
    by_cases h : group.isEmpty
    · rw [packLoop, if_pos h] at hg
      simp at hg
    · rw [packLoop, if_neg h] at hg
      rw [List.mem_singleton] at hg
      subst hg
      rw [hsum]
      exact hcap
  | cons p rest ih =>
    intro group s mv b hsum hcap hall g hg
    obtain ⟨d, v⟩ := p
    rw [packLoop] at hg
    by_cases hc : s + v ≤ mv - b
    · rw [if_pos hc] at hg
      refine ih _ _ _ _ ?_ hc (fun q hq => hall q (List.mem_cons_of_mem _ hq)) g hg
      simp [hsum]
    · rw [if_neg hc] at hg
      rcases List.mem_cons.mp hg with hg | hg
      · subst hg
        rw [hsum]
        exact hcap
      · refine ih _ _ _ _ ?_ ?_ (fun q hq => hall q (List.mem_cons_of_mem _ hq)) g hg
        · simp
        · exact hall (d, v) (List.mem_cons_self _ _)

/-- C4, amended.  The greedy grouping of lines 392-403 places every
destination in exactly one group, preserving order and hence the total
requested volume; and PROVIDED every individual destination volume is at
most `capacity − buffer` (always true when the 50 µL pipette was selected),
no group's total exceeds `capacity − buffer`.  A single destination volume
above the cap yields a group above the cap (see the counterexample). -/
theorem C4_amended (ds : List (Loc × ℚ)) (maxVol buffer : ℚ) :
    (packGroups ds maxVol buffer).flatten = ds ∧
    ((0 ≤ maxVol - buffer ∧ ∀ p ∈ ds, p.2 ≤ maxVol - buffer) →
      ∀ g ∈ packGroups ds maxVol buffer, (g.map Prod.snd).sum ≤ maxVol - buffer) := by
  constructor
  · rw [packGroups, packLoop_join]
    simp
  · intro h
    exact packLoop_bounded ds [] 0 maxVol buffer (by simp) h.1 h.2

/-- C4 witness: two destinations of 10 µL and 45 µL with the 50 µL pipette
(cap 48 µL): the groups repartition the destinations exactly and each group
total stays at or below 48 µL. -/
theorem C4_witness :
    (packGroups c4ds 50 2).flatten = c4ds ∧
    ∀ g ∈ packGroups c4ds 50 2, (g.map Prod.snd).sum ≤ 50 - 2 :=
  ⟨(C4_amended c4ds 50 2).1,
   (C4_amended c4ds 50 2).2 ⟨by norm_num,
     by intro p hp; simp [c4ds] at hp; rcases hp with rfl | rfl <;> norm_num⟩⟩

/-- C4, counterexample.  A single requested volume of 300 µL with the
200 µL-capacity pipette (cap `200 − 2 = 198`): the loop closes the (empty)
running group and seeds a singleton group of total 300 > 198, violating
condition (2) of the claim. -/
theorem C4_counterexample :
    (packGroups [(Loc.pcr "A1", 300)] 200 2).map
      (fun g => (g.map Prod.snd).sum) = [0, 300] ∧
    ¬ ((300 : ℚ) ≤ 200 - 2) := by
  constructor
  · norm_num [packGroups, packLoop, List.isEmpty]
  · norm_num

theorem scaled_no_small_of_singleton (vols : List ℚ) (s : ℚ)
    (hnn : ∀ v ∈ vols, 0 ≤ v) (hf : vols.filter smallB = [s]) :
    ∀ v ∈ vols, smallB (v * rescaleFactor vols) = false := by
  have hsmem : s ∈ vols.filter smallB := by
    rw [hf]
    exact List.mem_singleton_self s
  have hsB := (List.mem_filter.mp hsmem).2
  obtain ⟨hs_pos, hs_lt⟩ := (smallB_iff s).mp hsB
  have hfac : rescaleFactor vols = MIN_RELIABLE_VOLUME / s :=
    rescaleFactor_of_filter_singleton vols s hf
  have hf1 : 1 < rescaleFactor vols := by
    rw [hfac]
    exact (one_lt_div hs_pos).mpr hs_lt
  intro v hv
  by_cases hvB : smallB v = true
  · have hvmem : v ∈ vols.filter smallB := List.mem_filter.mpr ⟨hv, hvB⟩
    rw [hf, List.mem_singleton] at hvmem
    subst hvmem
    rw [hfac, mul_comm, div_mul_cancel₀ _ (ne_of_gt hs_pos)]
    simp [smallB]
  · have hv0 : 0 ≤ v := hnn v hv
    rcases eq_or_lt_of_le hv0 with heq | hpos
    · rw [← heq, zero_mul]
      simp [smallB]
    · have hge : MIN_RELIABLE_VOLUME ≤ v := by
        by_contra hlt
        push_neg at hlt
        exact hvB ((smallB_iff v).mpr ⟨hpos, hlt⟩)
    
      have hbig : MIN_RELIABLE_VOLUME ≤ v * rescaleFactor vols :=
        le_trans hge (le_mul_of_one_le_right (le_of_lt hpos) (le_of_lt hf1))
      simp only [smallB, Bool.and_eq_false_iff, decide_eq_false_iff_not, not_lt]
      right
      exact hbig

/-- C2, amended.  The `mix_has_small_volumes` pre-scan of line 345 tests the
RESCALED volumes.  A mix with exactly one original component volume in
`(0, 0.8)` (NaCl included in the count, per the rescaler) has that volume
rescaled to exactly 0.8 and all other volumes scaled up or left at 0, so the
pre-scan reports no small volume and the NaCl is dispatched directly to the
mix's PCR destination well, regardless of any allocated final vessel. -/
theorem C2_amended (vols : List ℚ) (srcs : List String) (dest : String)
    (hnn : ∀ v ∈ vols, 0 ≤ v) (hone : ∃ s, vols.filter smallB = [s]) :
    mixHasSmallB (mkMixData vols srcs dest) = false ∧
    ∀ (finalOpt : Option String) (nv : ℚ),
      naclDestsForMix (mixHasSmallB (mkMixData vols srcs dest)) finalOpt dest nv
        = [(Loc.pcr dest, nv)] := by
  obtain ⟨s, hf⟩ := hone
  have hmain : mixHasSmallB (mkMixData vols srcs dest) = false := by
    rw [mixHasSmallB, mkMixData_volumes]
    rw [List.any_eq_false]
    intro x hx
    rw [List.mem_map] at hx
    obtain ⟨v, hv, rfl⟩ := hx
    rw [scaled_no_small_of_singleton vols s hnn hf v hv]
    simp
  refine ⟨hmain, ?_⟩
  intro finalOpt nv
  rw [hmain]
  simp [naclDestsForMix]

/-- C2 witness: original volumes `[5, 2/5, 10]` (exactly one small volume),
any assigned final vessel: the NaCl destination list resolves to the PCR
destination well. -/
theorem C2_witness :
    mixHasSmallB (mkMixData [5, 2/5, 10] ["A1", "A2", "B1"] "A1") = false ∧
    ∀ (finalOpt : Option String) (nv : ℚ),
      naclDestsForMix (mixHasSmallB (mkMixData [5, 2/5, 10] ["A1", "A2", "B1"] "A1"))
        finalOpt "A1" nv = [(Loc.pcr "A1", nv)] :=
  C2_amended [5, 2/5, 10] ["A1", "A2", "B1"] "A1"
    (by intro v hv; simp [List.mem_cons] at hv; rcases hv with rfl | rfl | rfl <;> norm_num)
    ⟨2/5, by norm_num [smallB, MIN_RELIABLE_VOLUME, List.filter]⟩

/-- C2, counterexample.  The single mix `c2mix` (one small original volume)
gets a final intermediate vessel C1 from the allocator, yet its NaCl (20 µL
after rescaling) is dispatched to the PCR destination well A1, not to C1 —
contradicting "a mix for which the allocator assigned a final vessel never
has its NaCl dispatched to the destination well". -/
theorem C2_counterexample :
    lookupStr (allocMixes [c2mix]).assigned_final "A1" = some "C1" ∧
    (naclCollect [c2mix] (allocMixes [c2mix]).assigned_final).dests =
      [("B1", [(Loc.pcr "A1", 20)])] := by
  have h1 : (allocMixes [c2mix]).assigned_final = [("A1", "C1")] := by
    norm_num [c2mix, allocMixes, allocGo, initAllocState, initSmallPool,
      initFinalPool, mkMixData, rescalePair, rescaleFactor, smallB, listMin,
      MIN_RELIABLE_VOLUME, List.filter, allocSmallCount, mixScale, List.replicate,
      List.isEmpty, List.headD, List.head?, List.tail]
  constructor
  · rw [h1]
    norm_num [lookupStr, List.find?]
  · rw [h1]
    norm_num [c2mix, mkMixData, rescalePair, rescaleFactor, smallB, listMin,
      MIN_RELIABLE_VOLUME, List.filter, naclCollect, hasSmallMap, mixHasSmallB,
      naclDestsForMix, lookupBool, lookupStr, addTotal, addDests, List.getLastD,
      List.getLast?, List.foldl, List.find?, List.isEmpty, mixScale,
      List.replicate, List.headD, List.head?, List.tail]

theorem allocGo_exhausts_of_many (ms : List MixData) :
    ∀ st : AllocState,
    (∀ md ∈ ms, 1 < allocSmallCount md ∧ md.scale_factors.isEmpty = false) →
    st.small_pool.length < ms.length →
    (allocGo ms st).exhausted = true := by
  induction ms with
  | nil =>
    intro st _ h
    simp at h
  | cons md rest ih =>
    intro st hall hlen
    obtain ⟨hcnt, hsf⟩ := hall md (List.mem_cons_self _ _)
    rw [allocGo, if_neg (by simp [hsf]), if_pos hcnt]
    by_cases hpools : (st.small_pool.isEmpty || st.final_pool.isEmpty) = true
    · rw [if_pos hpools]
    · rw [if_neg hpools]
      apply ih
      · intro m hm
        exact hall m (List.mem_cons_of_mem _ hm)
      · have hne : st.small_pool ≠ [] := by
          intro h
          apply hpools
          simp [h]
        cases hsp : st.small_pool with
        | nil => exact absurd hsp hne
        | cons a l =>
          rw [hsp] at hlen
          simp at hlen ⊢
          omega

theorem c5mix_smallCount : allocSmallCount c5mix = 2 := by
  norm_num [c5mix, mkMixData, rescalePair, rescaleFactor, smallB, listMin,
    MIN_RELIABLE_VOLUME, List.filter, allocSmallCount, mixScale,
    List.headD, List.head?]

theorem c5mix_scale_factors : c5mix.scale_factors.isEmpty = false := by
  norm_num [c5mix, mkMixData, rescalePair, rescaleFactor, smallB, listMin,
    MIN_RELIABLE_VOLUME, List.filter, List.isEmpty]

theorem c5mixes_exhaust : (allocMixes c5mixes).exhausted = true := by
  apply allocGo_exhausts_of_many
  · intro md hm
    have hmd : md = c5mix := by
      simpa [c5mixes] using hm
    subst hmd
    exact ⟨c5mix_smallCount ▸ (by norm_num), c5mix_scale_factors⟩
  · norm_num [c5mixes, initAllocState, initSmallPool]

/-- C5 witness for the amended statement: seven two-stage mixes exhaust the
six-vessel small pool; the allocator pauses with the warning and stops, so
fewer allocation records than mixes exist. -/
theorem C5_amended_witness :
    (allocMixes c5mixes).allocs.length < c5mixes.length ∧
    Action.pause exhaustMsg ∈ (allocMixes c5mixes).events :=
  C5_amended c5mixes c5mixes_exhaust

/-- C8, amended.  A missing layout row does abort the run before any
physical action — the `except` at line 273 pauses and `return`s before any
tip pickup, aspirate or dispense — but the operator-facing message is the
generic `"Error parsing CSV: " + str(e)` (for a missing row,
`"list index out of range"`), which does NOT name the offending mix index;
see `C8_counterexample`. -/
theorem C8_amended (rawTable : List (List String)) (maxP mixCount : Nat)
    (premixFlag : Bool) (start50 start200 : String) (e : String)
    (he : parseAll (cleanTable rawTable) maxP mixCount = Except.error e) :
    runTrace rawTable maxP mixCount premixFlag start50 start200 =
      [Action.pause ("Error parsing CSV: " ++ e)] ∧
    ∀ a ∈ runTrace rawTable maxP mixCount premixFlag start50 start200,
      isPhysical a = false := by
  have h1 : runTrace rawTable maxP mixCount premixFlag start50 start200 =
      [Action.pause ("Error parsing CSV: " ++ e)] := by
    simp only [runTrace, he]
  refine ⟨h1, ?_⟩
  intro a ha
  rw [h1] at ha
  simp only [List.mem_singleton] at ha
  subst ha
  rfl

/-- C8 witness: on the empty table the parse of mix 0 fails with the
index-error message and the trace is the single pause — no pickup,
aspirate or dispense. -/
theorem C8_witness :
    runTrace c8T1 6 1 true "A1" "A1" =
      [Action.pause ("Error parsing CSV: " ++ indexErrMsg)] ∧
    ∀ a ∈ runTrace c8T1 6 1 true "A1" "A1", isPhysical a = false :=
  C8_amended c8T1 6 1 true "A1" "A1" indexErrMsg rfl

/-- C8, counterexample to "the message reports the offending mix index":
two tables failing at DIFFERENT mix indices (0 and 1) produce the SAME
parse result, message included — so the message cannot report the index. -/
theorem C8_counterexample :
    parseFailIdx c8T1 6 0 2 = some 0 ∧
    parseFailIdx c8T2 6 0 2 = some 1 ∧
    parseAll c8T1 6 2 = parseAll c8T2 6 2 := by
  refine ⟨rfl, ?_, ?_⟩
  · have hch : Char.toNat '5' = 53 := rfl
    norm_num +decide [parseFailIdx, parseMix, parseCells, parseDecimal?,
      parseDigits?, splitDotAux, pyStrip, destWellOf, mkMixData, rescalePair,
      rescaleFactor, smallB, listMin, MIN_RELIABLE_VOLUME, List.filter,
      indexErrMsg, List.dropWhile, Char.isWhitespace, List.range', c8T2,
      List.isEmpty, hch]
  · have hch : Char.toNat '5' = 53 := rfl
    norm_num +decide [parseAll, parseMixes, parseMix, parseCells, parseDecimal?,
      parseDigits?, splitDotAux, pyStrip, destWellOf, mkMixData, rescalePair,
      rescaleFactor, smallB, listMin, MIN_RELIABLE_VOLUME, List.filter,
      indexErrMsg, List.dropWhile, Char.isWhitespace, List.range', c8T1, c8T2,
      List.isEmpty, hch]

/-- C10: a destination-well row that is present but has no cells does not
fail the parse; the mix silently gets the default destination well "A1"
(line 257's falsy-row fallback). -/
theorem C10_empty_dest_row_defaults (table : List (List String)) (maxP m : Nat)
    (md : MixData) (hrow : table.getD (m * 15) [] = [])
    (hok : (parseMix table maxP m).toOption = some md) :
    md.dest_well = "A1" := by
  unfold parseMix at hok
  cases hv : table.get? (12 + m * 15) with
  | none =>
    rw [hv] at hok
    simp [Except.toOption] at hok
  | some volRow =>
    rw [hv] at hok
    dsimp only at hok
    cases hc : parseCells volRow (table.get? (13 + m * 15))
        (List.range' 1 (min (maxP + 1) volRow.length - 1)) with
    | error e =>
      rw [hc] at hok
      simp [Except.toOption] at hok
    | ok pr =>
      obtain ⟨vols, srcs⟩ := pr
      rw [hc] at hok
      simp only [Except.toOption, Option.some.injEq] at hok
      rw [← hok]
      show destWellOf table m = "A1"
      unfold destWellOf
      rw [hrow]

/-- C10 witness: `c10table` has an empty row 0; its mix parses fine and the
destination well defaults to "A1". -/
theorem C10_witness :
    c10table.getD 0 [] = [] ∧
    (parseMix c10table 6 0).toOption = some (mkMixData [5] ["B2"] "A1") ∧
    (mkMixData [5] ["B2"] "A1").dest_well = "A1" :=
  ⟨rfl,
   by
     have hch : Char.toNat '5' = 53 := rfl
     norm_num +decide [parseMix, parseCells, parseDecimal?, parseDigits?,
       splitDotAux, pyStrip, destWellOf, mkMixData, rescalePair, rescaleFactor,
       smallB, listMin, MIN_RELIABLE_VOLUME, List.filter, List.range', c10table,
       List.dropWhile, Char.isWhitespace, List.isEmpty, Except.toOption, hch],
   C10_empty_dest_row_defaults c10table 6 0 (mkMixData [5] ["B2"] "A1") rfl
     (by
       have hch : Char.toNat '5' = 53 := rfl
       norm_num +decide [parseMix, parseCells, parseDecimal?, parseDigits?,
         splitDotAux, pyStrip, destWellOf, mkMixData, rescalePair, rescaleFactor,
         smallB, listMin, MIN_RELIABLE_VOLUME, List.filter, List.range', c10table,
         List.dropWhile, Char.isWhitespace, List.isEmpty, Except.toOption, hch])⟩

theorem extends_rfl (st : ExecSt) : TraceExtends st st := ⟨[], by simp⟩

theorem extends_trans {st3 st2 st1 : ExecSt} (h2 : TraceExtends st3 st2)
    (h1 : TraceExtends st2 st1) : TraceExtends st3 st1 := by
  obtain ⟨t2, h2⟩ := h2
  obtain ⟨t1, h1⟩ := h1
  exact ⟨t1 ++ t2, by rw [h2, h1, List.append_assoc]⟩

theorem emit_extends (st : ExecSt) (a : Action) : TraceExtends (emit st a) st :=
  ⟨[a], rfl⟩

theorem emits_extends (st : ExecSt) (acts : List Action) :
    TraceExtends (emits st acts) st := ⟨acts, rfl⟩

theorem swapRack50_extends (st : ExecSt) : TraceExtends (swapRack50 st) st :=
  ⟨_, rfl⟩

theorem pick50_extends (st : ExecSt) : TraceExtends (pick50 st) st := by
  rw [pick50]
  by_cases h : st.tips50.isEmpty
  · rw [if_pos h]
    exact extends_trans ⟨_, rfl⟩ (swapRack50_extends st)
  · rw [if_neg h]
    exact ⟨_, rfl⟩

theorem pick200_extends (st : ExecSt) : TraceExtends (pick200 st) st := ⟨_, rfl⟩

theorem foldl_extends {α : Type} (f : ExecSt → α → ExecSt)
    (hf : ∀ st x, TraceExtends (f st x) st) (l : List α) :
    ∀ st, TraceExtends (l.foldl f st) st := by
  induction l with
  | nil => intro st; exact extends_rfl st
  | cons x xs ih =>
    intro st
    exact extends_trans (ih (f st x)) (hf st x)

theorem foldl_extends_pair {α β : Type} (f : β × ExecSt → α → β × ExecSt)
    (hf : ∀ acc x, TraceExtends (f acc x).2 acc.2) (l : List α) :
    ∀ acc, TraceExtends (l.foldl f acc).2 acc.2 := by
  induction l with
  | nil => intro acc; exact extends_rfl _
  | cons x xs ih =>
    intro acc
    exact extends_trans (ih (f acc x)) (hf acc x)

theorem smallTransfer_extends (dstWell : String) (p : ℚ × String) (st : ExecSt) :
    TraceExtends (smallTransfer dstWell p st) st := by
  rw [smallTransfer]
  split_ifs with h1 h2
  · exact extends_trans (emits_extends _ _) (pick50_extends st)
  · exact extends_trans (emits_extends _ _) (pick200_extends st)
  · exact extends_rfl st

theorem intermediateTransfer_extends (sw fw : String) (tot : ℚ) (st : ExecSt) :
    TraceExtends (intermediateTransfer sw fw tot st) st := by
  rw [intermediateTransfer]
  split_ifs with h1
  · exact extends_trans (emits_extends _ _) (pick50_extends st)
  · exact extends_trans (emits_extends _ _) (pick200_extends st)

theorem oneSmallTransfer_extends (fw : String) (vol : ℚ) (src : String)
    (st : ExecSt) : TraceExtends (oneSmallTransfer fw vol src st) st := by
  rw [oneSmallTransfer]
  split_ifs with h1
  · exact extends_trans (emits_extends _ _) (pick50_extends st)
  · exact extends_trans (emits_extends _ _) (pick200_extends st)

theorem normalTransfer_extends (dst : Loc) (st : ExecSt) (p : ℚ × String) :
    TraceExtends (normalTransfer dst st p) st := by
  rw [normalTransfer]
  split_ifs with h1 h2
  · exact extends_rfl st
  · exact extends_trans (emits_extends _ _) (pick50_extends st)
  · exact extends_trans (emits_extends _ _) (pick200_extends st)

theorem finalTransfer_extends (md : MixData) (fw : String) (st : ExecSt) :
    TraceExtends (finalTransfer md fw st) st := by
  rw [finalTransfer]
  by_cases h : totalVolume577 md ≤ 50
  · simp only [h, if_pos]
    exact extends_trans (emits_extends _ _)
      (extends_trans (pick50_extends _) (emit_extends _ _))
  · simp only [h, if_neg, if_false]
    exact extends_trans (emits_extends _ _)
      (extends_trans (pick200_extends _) (emit_extends _ _))

theorem premixOne_extends (src : String) (st : ExecSt) :
    TraceExtends (premixOne src st) st := by
  rw [premixOne]
  refine extends_trans (emits_extends _ _) ?_
  refine extends_trans (foldl_extends _ (fun st _ => emits_extends _ _) _ _) ?_
  exact extends_trans (emit_extends _ _) (pick200_extends st)

theorem premixPhase_extends (wm : List (String × String)) (pf : Bool)
    (md : MixData) (acc : List String × ExecSt) :
    TraceExtends (premixPhase wm pf md acc).2 acc.2 := by
  rw [premixPhase]
  apply foldl_extends_pair
  intro acc p
  dsimp only
  split_ifs with h
  · exact premixOne_extends _ _
  · exact extends_rfl _

theorem execMix_extends (wm : List (String × String))
    (aS aF : List (String × String)) (pf : Bool)
    (acc : List String × ExecSt) (md : MixData) :
    TraceExtends (execMix wm aS aF pf acc md).2 acc.2 := by
  rw [execMix]
  split_ifs with hcr
  · exact extends_rfl _
  · have hpre := premixPhase_extends wm pf md acc
    have hemit : TraceExtends
        (emit (premixPhase wm pf md acc).2 (Action.comment ("Transferring to " ++ md.dest_well)))
        acc.2 := extends_trans (emit_extends _ _) hpre
    by_cases hsm : (partitionSmalls wm md).1.isEmpty
    · simp only [hsm, if_pos]
      exact extends_trans
        (foldl_extends _ (fun st p => normalTransfer_extends _ st p) _ _) hemit
    · simp only [hsm, if_neg, Bool.false_eq_true, if_false]
      by_cases hlen : (partitionSmalls wm md).1.length > 1
      · simp only [hlen, if_pos]
        cases hS : lookupStr aS md.dest_well with
        | none =>
          obtain ⟨t, ht⟩ := hemit
          exact ⟨t, ht⟩
        | some sw =>
          cases hF : lookupStr aF md.dest_well with
          | none =>
            obtain ⟨t, ht⟩ := extends_trans
              (foldl_extends _ (fun st p => smallTransfer_extends sw p st) _ _) hemit
            exact ⟨t, ht⟩
          | some fw =>
            refine extends_trans (finalTransfer_extends _ _ _) ?_
            refine extends_trans
              (foldl_extends _ (fun st p => normalTransfer_extends _ st p) _ _) ?_
            refine extends_trans (intermediateTransfer_extends _ _ _ _) ?_
            exact extends_trans
              (foldl_extends _ (fun st p => smallTransfer_extends _ p st) _ _) hemit
      · simp only [hlen, if_neg, if_false]
        cases hF : lookupStr aF md.dest_well with
        | none =>
          obtain ⟨t, ht⟩ := hemit
          exact ⟨t, ht⟩
        | some fw =>
          split_ifs with hv
          · exact hemit
          · refine extends_trans (finalTransfer_extends _ _ _) ?_
            refine extends_trans
              (foldl_extends _ (fun st p => normalTransfer_extends _ st p) _ _) ?_
            exact extends_trans (oneSmallTransfer_extends _ _ _ _) hemit

theorem execBatches_extends (wm : List (String × String))
    (aS aF : List (String × String)) (pf : Bool) (ms : List MixData)
    (st : ExecSt) : TraceExtends (execBatches wm aS aF pf ms st) st := by
  rw [execBatches]
  apply foldl_extends
  intro st batch
  dsimp only
  split_ifs with h
  · exact extends_rfl _
  · exact extends_trans
      (foldl_extends_pair _ (fun acc md => execMix_extends wm aS aF pf acc md) _ _)
      (emit_extends _ _)

theorem allocGo_crashed_of (ms : List MixData) :
    ∀ st : AllocState,
    (∀ md ∈ ms, md.scale_factors.isEmpty = false) →
    (allocGo ms st).crashed = st.crashed := by
  induction ms with
  | nil => intro st _; rfl
  | cons md rest ih =>
    intro st hall
    have hsf := hall md (List.mem_cons_self _ _)
    rw [allocGo, if_neg (by simp [hsf])]
    have hrest := fun m hm => hall m (List.mem_cons_of_mem _ hm)
    by_cases hcnt : allocSmallCount md > 1
    · rw [if_pos hcnt]
      by_cases hp : (st.small_pool.isEmpty || st.final_pool.isEmpty) = true
      · rw [if_pos hp]
      · rw [if_neg hp, ih _ hrest]
    · rw [if_neg hcnt]
      by_cases hone : allocSmallCount md = 1
      · rw [if_pos hone]
        by_cases hcp : st.combined_pool.isEmpty
        · rw [if_pos hcp]
        · rw [if_neg hcp, ih _ hrest]
      · rw [if_neg hone, ih _ hrest]

theorem c5bmix_smallCount (d : String) : allocSmallCount (c5bmix d) = 2 := by
  norm_num [c5bmix, mkMixData, rescalePair, rescaleFactor, smallB, listMin,
    MIN_RELIABLE_VOLUME, List.filter, allocSmallCount, mixScale,
    List.headD, List.head?]

theorem c5bmix_scale_factors (d : String) :
    (c5bmix d).scale_factors.isEmpty = false := by
  norm_num [c5bmix, mkMixData, rescalePair, rescaleFactor, smallB, listMin,
    MIN_RELIABLE_VOLUME, List.filter, List.isEmpty]

theorem c5lastmix_smallCount : allocSmallCount c5lastmix = 2 := by
  norm_num [c5lastmix, mkMixData, rescalePair, rescaleFactor, smallB, listMin,
    MIN_RELIABLE_VOLUME, List.filter, allocSmallCount, mixScale,
    List.headD, List.head?]

theorem c5lastmix_scale_factors : c5lastmix.scale_factors.isEmpty = false := by
  norm_num [c5lastmix, mkMixData, rescalePair, rescaleFactor, smallB, listMin,
    MIN_RELIABLE_VOLUME, List.filter, List.isEmpty]

theorem c5rmixes_all : ∀ md ∈ c5rmixes,
    1 < allocSmallCount md ∧ md.scale_factors.isEmpty = false := by
  intro md hm
  simp only [c5rmixes, List.mem_cons, List.mem_singleton, List.not_mem_nil,
    or_false] at hm
  rcases hm with rfl | rfl | rfl | rfl | rfl | rfl | rfl <;>
    first
      | exact ⟨by rw [c5bmix_smallCount]; norm_num, c5bmix_scale_factors _⟩
      | exact ⟨by rw [c5lastmix_smallCount]; norm_num, c5lastmix_scale_factors⟩

theorem c5r_exhaust : (allocMixes c5rmixes).exhausted = true := by
  apply allocGo_exhausts_of_many _ _ c5rmixes_all
  norm_num [c5rmixes, initAllocState, initSmallPool]

theorem c5r_not_crashed : (allocMixes c5rmixes).crashed = false := by
  rw [allocMixes, allocGo_crashed_of _ _ (fun md hm => (c5rmixes_all md hm).2)]
  rfl

theorem c5r_pause : Action.pause exhaustMsg ∈ (allocMixes c5rmixes).events :=
  (allocGo_exhaust_stops c5rmixes initAllocState rfl c5r_exhaust).2

theorem c5plan_eval (l : List (String × String)) :
    ∃ loc, naclCollect c5rmixes l =
      ⟨[("B1", (10 : ℚ))], [("B1", [(loc, (10 : ℚ))])], false⟩ := by
  cases h : lookupStr l "M7" with
  | none =>
    refine ⟨Loc.pcr "M7", ?_⟩
    norm_num [naclCollect, hasSmallMap, mixHasSmallB, naclDestsForMix,
      lookupBool, addTotal, addDests, c5rmixes, c5bmix, c5lastmix, mkMixData,
      rescalePair, rescaleFactor, smallB, listMin, MIN_RELIABLE_VOLUME,
      List.filter, List.getLastD, List.getLast?, h, List.isEmpty, List.find?]
  | some f =>
    refine ⟨Loc.plasmid f, ?_⟩
    norm_num [naclCollect, hasSmallMap, mixHasSmallB, naclDestsForMix,
      lookupBool, addTotal, addDests, c5rmixes, c5bmix, c5lastmix, mkMixData,
      rescalePair, rescaleFactor, smallB, listMin, MIN_RELIABLE_VOLUME,
      List.filter, List.getLastD, List.getLast?, h, List.isEmpty, List.find?]

theorem c5nacl_dispense (loc : Loc) (st : ExecSt) :
    Action.dispense 50 10 loc ∈ (naclExecOne "B1" 10 [(loc, 10)] st).trace := by
  rw [naclExecOne]
  norm_num [packGroups, packLoop, emits, emit, List.isEmpty, List.mem_append]

theorem c5nacl_in_exec (loc : Loc) (st : ExecSt) :
    Action.dispense 50 10 loc ∈
      (naclExec ⟨[("B1", (10 : ℚ))], [("B1", [(loc, (10 : ℚ))])], false⟩ st).trace := by
  have h := c5nacl_dispense loc st
  norm_num [naclExec, lookupDests, List.find?]
  exact h

/-- C5, counterexample to "no subsequent transfer steps are executed": in a
run (post-parse phases, `runFromMixes`) with seven two-stage mixes the
allocator exhausts the small pool at the seventh mix and pauses with the
warning, yet the trace still contains a NaCl dispense AFTER that pause (the
`break` only exits the allocation loop; the NaCl multi-dispensing of lines
373-415 runs regardless, the unallocated mix falling back to its PCR
destination well). -/
theorem C5_counterexample :
    ∃ (pre mid post : List Action) (cls : Nat) (v : ℚ) (loc : Loc),
      runFromMixes c5wm c5rmixes true "A1" "A1" =
        pre ++ Action.pause exhaustMsg ::
          (mid ++ Action.dispense cls v loc :: post) := by
  obtain ⟨loc, hplan⟩ := c5plan_eval (allocMixes c5rmixes).assigned_final
  obtain ⟨e1, e2, hev⟩ := List.append_of_mem c5r_pause
  have hd1 : Action.dispense 50 10 loc ∈
      (naclExec (naclCollect c5rmixes (allocMixes c5rmixes).assigned_final)
        ⟨rack96.dropWhile (fun w => w ≠ "A1"), rack96,
         rack96.dropWhile (fun w => w ≠ "A1"), [], false⟩).trace := by
    rw [hplan]
    exact c5nacl_in_exec loc _
  obtain ⟨t, ht⟩ := execBatches_extends c5wm (allocMixes c5rmixes).assigned_small
    (allocMixes c5rmixes).assigned_final true c5rmixes
    (naclExec (naclCollect c5rmixes (allocMixes c5rmixes).assigned_final)
      ⟨rack96.dropWhile (fun w => w ≠ "A1"), rack96,
       rack96.dropWhile (fun w => w ≠ "A1"), [], false⟩)
  have hd2 : Action.dispense 50 10 loc ∈
      (execBatches c5wm (allocMixes c5rmixes).assigned_small
        (allocMixes c5rmixes).assigned_final true c5rmixes
        (naclExec (naclCollect c5rmixes (allocMixes c5rmixes).assigned_final)
          ⟨rack96.dropWhile (fun w => w ≠ "A1"), rack96,
           rack96.dropWhile (fun w => w ≠ "A1"), [], false⟩)).trace := by
    rw [ht]
    exact List.mem_append_left _ hd1
  obtain ⟨t1, t2, htr⟩ := List.append_of_mem hd2
  rw [runFromMixes]
  simp only [c5r_not_crashed, Bool.false_eq_true, if_false, hplan]
  rw [← hplan]
  refine ⟨e1, e2 ++ Action.latchClose :: t1,
    t2 ++ (if (execBatches c5wm (allocMixes c5rmixes).assigned_small
        (allocMixes c5rmixes).assigned_final true c5rmixes
        (naclExec (naclCollect c5rmixes (allocMixes c5rmixes).assigned_final)
          ⟨rack96.dropWhile (fun w => w ≠ "A1"), rack96,
           rack96.dropWhile (fun w => w ≠ "A1"), [], false⟩)).crashed then []
      else [Action.comment "Protocol complete", Action.latchOpen]),
    50, 10, loc, ?_⟩
  rw [hev, htr]
  simp [List.append_assoc]

/-- C7 witness at volumes `[5, 1/2]`. -/
theorem C7_witness :
    [(5 : ℚ), 1/2].sum = (mkMixData [5, 1/2] ["A1", "B1"] "A1").volumes.sum /
        mixScale (mkMixData [5, 1/2] ["A1", "B1"] "A1") ∧
    totalVolume577 (mkMixData [5, 1/2] ["A1", "B1"] "A1") = [(5 : ℚ), 1/2].sum :=
  C7_rescaling_volume_preserving [5, 1/2] ["A1", "B1"] "A1"
    (by intro v hv; simp [List.mem_cons] at hv; rcases hv with rfl | rfl <;> norm_num)

end DNAmix

namespace Aliquoting

/-- C9: in the aliquoting protocol, whenever `mix_count` exceeds the number
of destination wells determined by the starting mix position and the
rows/columns geometry, the run raises an error and never picks up a tip
(no `pick_up_tip` call occurs in such a run). -/
theorem C9_no_tip_on_well_overflow (p : AqParams)
    (h : (aqAllWells p).length < p.mix_count) :
    (aqRun p).2.isSome = true ∧ ∀ a ∈ (aqRun p).1, isPickUp a = false := by
  rw [aqRun]
  cases hg : aqGeom p with
  | none =>
    refine ⟨rfl, ?_⟩
    intro a ha
    simp at ha
  | some g =>
    obtain ⟨ri, sc⟩ := g
    dsimp only
    by_cases hr : ri + p.mix_rows_count > plateRows.length
    · rw [if_pos hr]
      refine ⟨rfl, ?_⟩
      intro a ha
      simp only [List.mem_singleton] at ha
      subst ha
      rfl
    · rw [if_neg hr, if_pos h]
      refine ⟨rfl, ?_⟩
      intro a ha
      simp only [List.mem_singleton] at ha
      subst ha
      rfl

/-- C9 witness: 13 mixes against 12 available wells — error, no pickup. -/
theorem C9_witness :
    (aqAllWells c9params).length < c9params.mix_count ∧
    (aqRun c9params).2.isSome = true ∧
    ∀ a ∈ (aqRun c9params).1, isPickUp a = false :=
  ⟨by decide,
   (C9_no_tip_on_well_overflow c9params (by decide)).1,
   (C9_no_tip_on_well_overflow c9params (by decide)).2⟩

end Aliquoting
